import Mathlib

/-!
Shallow embedding of the "Console and Cartridge" core of the
inhouse-multiplayer repository: the session/team registry
(`src/server/core/session_manager.py`), the event router / state machine
(`src/server/core/event_router.py`), the cartridge contract
(`src/server/games/base_game.py`) and the Survival cartridge
(`src/server/games/survival/game.py`).

Python dictionaries are modelled as association lists with Python's
semantics: assignment updates an existing key in place or appends a new
binding, `del`/`pop` removes the binding, iteration follows insertion
order.  Randomness (join-code generation) and uuid generation are
modelled by explicit supplies passed to the operations.  The JSON file
behind the persistence layer is modelled as an in-memory snapshot value
(an ideal disk: writes succeed and round-trip losslessly, which is what
`json.dump`/`json.load` do on the string-keyed dictionaries involved).
-/

namespace Inhouse

/-- Association list with string keys, modelling a Python `dict`. -/
abbrev AList (V : Type) : Type := List (String × V)

namespace AList

/-- Python `d.get(k)` / `d[k]`. -/
def lookup {V : Type} : AList V → String → Option V
  | [], _ => none
  | (k, v) :: rest, key => if k = key then some v else lookup rest key

/-- Python `d[k] = v`: update in place if the key exists, else append. -/
def insert {V : Type} : AList V → String → V → AList V
  | [], key, val => [(key, val)]
  | (k, v) :: rest, key, val =>
      if k = key then (key, val) :: rest else (k, v) :: insert rest key val

/-- Python `del d[k]` / `d.pop(k, None)`. -/
def erase {V : Type} : AList V → String → AList V
  | [], _ => []
  | (k, v) :: rest, key => if k = key then rest else (k, v) :: erase rest key

/-- Python `k in d`. -/
def contains {V : Type} (l : AList V) (key : String) : Bool :=
  (l.lookup key).isSome

/-- The keys of the dict, in iteration order. -/
def keys {V : Type} (l : AList V) : List String :=
  List.map Prod.fst l

end AList

/-- A JSON-serializable value, the payload currency of the system
(`state_data`, event payloads). -/
inductive JVal where
  | null : JVal
  | jbool : Bool → JVal
  | jnum : Int → JVal
  | jstr : String → JVal
  | jarr : List JVal → JVal
  | jobj : List (String × JVal) → JVal

/-- The opaque `state_data` dict handed to a cartridge on entry. -/
def StateData : Type := List (String × JVal)

/-- A player record inside a team (`session_manager.py`, created in
`create_team` / `join_team`). -/
structure Player where
  name : String
  joined_at : Nat
deriving DecidableEq

/-- A team record (`SessionManager.create_team`).  `avatar` is `none`
while the `'avatar'` key is absent from the Python dict. -/
structure Team where
  name : String
  score : Int
  status : String
  eliminated : Bool
  join_code : String
  color : Nat
  avatar : Option String
  players : AList Player
deriving DecidableEq

/-- A session value.  The Python dict stores either a legacy bare
team-id string or a `{team_id, player_id, last_seen}` record. -/
inductive SessVal where
  | legacy : String → SessVal
  | sess : String → Option String → Nat → SessVal
deriving DecidableEq

/-- `session_data.get('team_id') if isinstance(session_data, dict) else session_data`. -/
def SessVal.teamId : SessVal → String
  | .legacy tid => tid
  | .sess tid _ _ => tid

/-- `session_data.get('player_id') if isinstance(session_data, dict) else None`. -/
def SessVal.playerId : SessVal → Option String
  | .legacy _ => none
  | .sess _ pid _ => pid

/-- The JSON object written by `_save_scores` and read by `_load_scores`. -/
structure Snapshot where
  teams : AList Team
  sessions : AList SessVal
  current_state : String
  state_data : StateData

/-- The mutable state of `SessionManager`.  `persisted` models the
contents of `data/scores.json` (an ideal disk: `json.dump` succeeds and
round-trips the string-keyed dict losslessly). -/
structure SessionManager where
  teams : AList Team
  sessions : AList SessVal
  join_codes : AList String
  current_state : String
  state_data : StateData
  persisted : Option Snapshot

/-- Python truthiness of an optional string: `None` and `''` are falsy. -/
def truthyStr : Option String → Option String
  | none => none
  | some s => if s = "" then none else some s

/-- Python `str.strip()`: drop leading and trailing whitespace. -/
def pyStrip (s : String) : String :=
  String.mk (List.reverse (List.dropWhile Char.isWhitespace
    (List.reverse (List.dropWhile Char.isWhitespace s.toList))))

/-- Python `str.lower()` (case folding for name comparison). -/
def pyLower (s : String) : String := String.mk (List.map Char.toLower s.toList)

/-- Python `str.upper()` (join-code normalization). -/
def pyUpper (s : String) : String := String.mk (List.map Char.toUpper s.toList)

/-- The restricted join-code alphabet
(`chars = 'ABCDEFGHJKMNPQRSTUVWXYZ23456789'`). -/
def JOIN_CODE_CHARS : List Char :=
  "ABCDEFGHJKMNPQRSTUVWXYZ23456789".toList

/-- `generate_join_code(length=4)`: four independent random choices from
the restricted alphabet.  The random source is modelled by `pick`, a
stream of indices into the alphabet; call `n` consumes picks
`4*n .. 4*n+3`. -/
def generate_join_code (pick : Nat → Fin 31) (start : Nat) : String :=
  String.mk ((List.range 4).map (fun i => JOIN_CODE_CHARS.get ((pick (start + i)).cast (by decide))))

/-- The retry loop in `create_team`:
`join_code = generate_join_code(); while join_code in self.join_codes: ...`.
`codeGen i` is the i-th generated candidate.  `none` models the loop
never terminating (every candidate collides). -/
def gen_code_loop (codeGen : Nat → String) (used : AList String) : Nat → Nat → Option String
  | 0, _ => none
  | fuel + 1, i =>
      let c := codeGen i
      if AList.contains used c then gen_code_loop codeGen used fuel (i + 1) else some c

/-- `_load_scores` rebuilds the `join_codes` lookup by scanning teams:
`for team_id, team_data in self.teams.items(): self.join_codes[team_data['join_code']] = team_id`. -/
def rebuildJoinCodes (teams : AList Team) : AList String :=
  List.foldl (fun acc p => AList.insert acc p.2.join_code p.1) [] teams

namespace SessionManager

/-- `__init__` + `_load_scores`: a fresh instance pointed at a data file
(`none` = no `scores.json`, start fresh with state `LOBBY`). -/
def fresh (file : Option Snapshot) : SessionManager :=
  match file with
  | none => ⟨[], [], [], "LOBBY", [], none⟩
  | some snap =>
      ⟨snap.teams, snap.sessions, rebuildJoinCodes snap.teams,
       snap.current_state, snap.state_data, some snap⟩

/-- `_save_scores`: persist the full snapshot (atomic write modelled as
an ideal disk update). -/
def save_scores (s : SessionManager) : SessionManager :=
  { s with persisted := some ⟨s.teams, s.sessions, s.current_state, s.state_data⟩ }

/-- `set_state`: update current game state and persist. -/
def set_state (s : SessionManager) (new_state : String) (state_data : StateData) :
    SessionManager :=
  save_scores { s with current_state := new_state, state_data := state_data }

/-- `get_team`. -/
def get_team (s : SessionManager) (team_id : String) : Option Team :=
  AList.lookup s.teams team_id

/-- `get_team_for_session` (legacy translation is captured by
`SessVal.teamId` / `SessVal.playerId` on the consumer side). -/
def get_team_for_session (s : SessionManager) (session_id : String) : Option SessVal :=
  AList.lookup s.sessions session_id

/-- `_get_players_list`. -/
def get_players_list (s : SessionManager) (team_id : String) : List (String × String) :=
  match AList.lookup s.teams team_id with
  | none => []
  | some t => List.map (fun p => (p.1, p.2.name)) t.players

/-- `_assign_team_color`: first palette id (1..8) not in use, else
cycle by team count. -/
def assign_team_color (s : SessionManager) : Nat :=
  let used := List.map (fun p => p.2.color) s.teams
  match List.find? (fun c => !(List.contains used c)) [1, 2, 3, 4, 5, 6, 7, 8] with
  | some c => c
  | none => (s.teams.length % 8) + 1

end SessionManager

/-- The result dict returned by `create_team` / `join_team`.  Optional
fields model keys absent from some of the returned dicts. -/
structure TeamResult where
  success : Bool
  team_id : Option String
  player_id : Option String
  team_name : String
  player_name : String
  join_code : String
  color : Option Nat
  players : List (String × String)
  message : String
deriving DecidableEq

/-- A failure result: `{'success': False, 'message': msg}`. -/
def TeamResult.failure (msg : String) : TeamResult :=
  ⟨false, none, none, "", "", "", none, [], msg⟩

namespace SessionManager

/-- The "session already has a live team" reconnect block shared
verbatim by `create_team` and `join_team` (returns `none` when the
block falls through to the creation/join path). -/
def reconnect_result (s : SessionManager) (session_id : String) : Option TeamResult :=
  match AList.lookup s.sessions session_id with
  | none => none
  | some sv =>
      match AList.lookup s.teams sv.teamId with
      | none => none
      | some team =>
          some ⟨true, some sv.teamId, sv.playerId, team.name,
                (match truthyStr sv.playerId with
                 | some pid =>
                     (match AList.lookup team.players pid with
                      | some p => p.name
                      | none => "")
                 | none => ""),
                team.join_code, none, s.get_players_list sv.teamId,
                "Reconnected to existing team"⟩

/-- `create_team(team_name, player_name, session_id)`.
`now` models `time.time()`, `new_team_id`/`new_player_id` the two
`uuid.uuid4()` draws, `codeGen` the join-code random stream and `fuel`
bounds the collision-retry loop (`none` = the Python loop never
terminates). -/
def create_team (s : SessionManager) (team_name0 player_name0 session_id : String)
    (now : Nat) (new_team_id new_player_id : String)
    (codeGen : Nat → String) (fuel : Nat) : Option (TeamResult × SessionManager) :=
  let team_name := pyStrip team_name0
  if team_name = "" ∨ team_name.length > 20 then
    some (TeamResult.failure "Team name must be 1-20 characters", s)
  else
    let player_name := pyStrip player_name0
    if player_name = "" ∨ player_name.length > 20 then
      some (TeamResult.failure "Player name must be 1-20 characters", s)
    else
      match s.reconnect_result session_id with
      | some r => some (r, s)
      | none =>
          if List.any s.teams (fun p => pyLower p.2.name = pyLower team_name) then
            some (TeamResult.failure "Team name already taken", s)
          else
            match gen_code_loop codeGen s.join_codes fuel 0 with
            | none => none
            | some join_code =>
                let color := s.assign_team_color
                let team : Team :=
                  ⟨team_name, 0, "active", false, join_code, color, none,
                   [(new_player_id, ⟨player_name, now⟩)]⟩
                let s1 : SessionManager :=
                  { s with
                    teams := AList.insert s.teams new_team_id team,
                    join_codes := AList.insert s.join_codes join_code new_team_id,
                    sessions := AList.insert s.sessions session_id
                      (.sess new_team_id (some new_player_id) now) }
                let s2 := s1.save_scores
                some (⟨true, some new_team_id, some new_player_id, team_name,
                       player_name, join_code, some color,
                       s2.get_players_list new_team_id,
                       "Team created successfully"⟩, s2)

/-- `join_team(join_code, player_name, session_id)`.  The outer `none`
models the uncaught `KeyError` when the join-code index points at a
missing team. -/
def join_team (s : SessionManager) (join_code0 player_name0 session_id : String)
    (now : Nat) (new_player_id : String) : Option (TeamResult × SessionManager) :=
  let player_name := pyStrip player_name0
  if player_name = "" ∨ player_name.length > 20 then
    some (TeamResult.failure "Player name must be 1-20 characters", s)
  else
    let join_code := pyUpper (pyStrip join_code0)
    match s.reconnect_result session_id with
    | some r => some (r, s)
    | none =>
        match AList.lookup s.join_codes join_code with
        | none => some (TeamResult.failure "Invalid join code", s)
        | some team_id =>
            match AList.lookup s.teams team_id with
            | none => none
            | some team =>
                if List.any team.players
                    (fun p => pyLower p.2.name = pyLower player_name) then
                  some (TeamResult.failure "Player name already taken on this team", s)
                else
                  let team' : Team :=
                    { team with players :=
                        AList.insert team.players new_player_id ⟨player_name, now⟩ }
                  let s1 : SessionManager :=
                    { s with
                      teams := AList.insert s.teams team_id team',
                      sessions := AList.insert s.sessions session_id
                        (.sess team_id (some new_player_id) now) }
                  let s2 := s1.save_scores
                  some (⟨true, some team_id, some new_player_id, team.name,
                         player_name, join_code, some team.color,
                         s2.get_players_list team_id,
                         "Joined team " ++ team.name⟩, s2)

/-- `reassociate_session(session_id, team_id, player_id)`. -/
def reassociate_session (s : SessionManager) (session_id team_id player_id : String)
    (now : Nat) : Bool × SessionManager :=
  match AList.lookup s.teams team_id with
  | none => (false, s)
  | some team =>
      match AList.lookup team.players player_id with
      | none => (false, s)
      | some _ =>
          (true, save_scores
            { s with sessions :=
                AList.insert s.sessions session_id (.sess team_id (some player_id) now) })

/-- `add_points(team_id, points, reason)`. -/
def add_points (s : SessionManager) (team_id : String) (points : Int) :
    Bool × SessionManager :=
  match AList.lookup s.teams team_id with
  | none => (false, s)
  | some team =>
      (true, save_scores
        { s with teams :=
            AList.insert s.teams team_id { team with score := team.score + points } })

/-- The per-team body of `reset_game(preserve_teams=True)`:
zero the score and clear elimination/status. -/
def resetTeam (t : Team) : Team :=
  { t with score := 0, status := "active", eliminated := false }

/-- `reset_game(preserve_teams)`. -/
def reset_game (s : SessionManager) (preserve_teams : Bool) : SessionManager :=
  if preserve_teams then
    save_scores { s with teams := List.map (fun p => (p.1, resetTeam p.2)) s.teams }
  else
    save_scores { s with teams := [], sessions := [], join_codes := [] }

/-- `kick_team(team_id)`: remove the team, its join code and every
session pointing at it. -/
def kick_team (s : SessionManager) (team_id : String) : Bool × SessionManager :=
  match AList.lookup s.teams team_id with
  | none => (false, s)
  | some team =>
      (true, save_scores
        { s with
          teams := AList.erase s.teams team_id,
          join_codes := AList.erase s.join_codes team.join_code,
          sessions := List.filter (fun p => p.2.teamId ≠ team_id) s.sessions })

/-- `set_team_avatar(team_id, avatar_id)`. -/
def set_team_avatar (s : SessionManager) (team_id avatar_id : String) :
    Bool × SessionManager :=
  match AList.lookup s.teams team_id with
  | none => (false, s)
  | some team =>
      (true, save_scores
        { s with teams :=
            AList.insert s.teams team_id { team with avatar := some avatar_id } })

/-- `toggle_elimination(team_id, eliminated)`. -/
def toggle_elimination (s : SessionManager) (team_id : String) (eliminated : Bool) :
    Bool × SessionManager :=
  match AList.lookup s.teams team_id with
  | none => (false, s)
  | some team =>
      (true, save_scores { s with teams := AList.insert s.teams team_id { team with eliminated := eliminated, status := if eliminated then "eliminated" else "active" } })

/-- `touch_session(session_id)`: refresh `last_seen`, migrating the
legacy format. -/
def touch_session (s : SessionManager) (session_id : String) (now : Nat) :
    SessionManager :=
  match AList.lookup s.sessions session_id with
  | none => s
  | some (.legacy tid) =>
      { s with sessions := AList.insert s.sessions session_id (.sess tid none now) }
  | some (.sess tid pid _) =>
      { s with sessions := AList.insert s.sessions session_id (.sess tid pid now) }

end SessionManager

/-- The team record inserted by the creation path of `create_team`. -/
def newTeam (tn pn : String) (now : Nat) (pid code : String) (color : Nat) : Team :=
  ⟨pyStrip tn, 0, "active", false, code, color, none, [(pid, ⟨pyStrip pn, now⟩)]⟩

/-- The state after the creation path of `create_team`. -/
def afterCreate (s : SessionManager) (tn pn sid : String) (now : Nat)
    (tid pid code : String) : SessionManager :=
  SessionManager.save_scores
    { s with
      teams := AList.insert s.teams tid (newTeam tn pn now pid code s.assign_team_color),
      join_codes := AList.insert s.join_codes code tid,
      sessions := AList.insert s.sessions sid (.sess tid (some pid) now) }

/-- The state after the success path of `join_team`. -/
def afterJoin (s : SessionManager) (pn sid : String) (now : Nat)
    (pid team_id : String) (team : Team) : SessionManager :=
  SessionManager.save_scores
    { s with
      teams := AList.insert s.teams team_id
        { team with players := AList.insert team.players pid ⟨pyStrip pn, now⟩ },
      sessions := AList.insert s.sessions sid (.sess team_id (some pid) now) }

/-- The response envelope of `base_game.py` (`EventResponse`): each
field is a dict of event-name → payload, except `error` which is a
single payload dict (truthy iff non-empty). -/
structure EventResponse where
  broadcast : AList JVal
  to_sender : AList JVal
  to_team : AList JVal
  to_team_others : AList JVal
  to_admin : AList JVal
  to_specific_team : AList (AList JVal)
  error : List (String × JVal)

/-- `EventResponse()`: all channels empty. -/
def EventResponse.empty : EventResponse := ⟨[], [], [], [], [], [], []⟩

/-- `EventContext` of `base_game.py`. -/
structure EventContext where
  session_id : String
  team_id : Option String
  player_id : Option String
  player_name : String
  team_name : String
  is_admin : Bool

/-- A Socket.IO room an emission is addressed to.  `team t` stands for
the room string `"team:" + t`; `teamSkip t skip` is the same room with
`skip_sid=skip`. -/
inductive Room where
  | all : Room
  | sid : String → Room
  | team : String → Room
  | teamSkip : String → String → Room
  | admin : Room

/-- One `socketio.emit(event, payload, room=...)` call. -/
structure Emission where
  event : String
  payload : JVal
  room : Room

/-- `EventRouter._process_response`: fan an envelope out to its
audiences.  Python truthiness: a dict is truthy iff non-empty, the
context iff present, `context.session_id` / `context.team_id` iff a
non-empty string. -/
def processResponse (response : EventResponse) (context : Option EventContext) :
    List Emission :=
  let bcast :=
    if response.broadcast.isEmpty then []
    else List.map (fun p => Emission.mk p.1 p.2 Room.all) response.broadcast
  let sender :=
    match context with
    | some c =>
        if ¬response.to_sender.isEmpty ∧ c.session_id ≠ "" then
          List.map (fun p => Emission.mk p.1 p.2 (Room.sid c.session_id)) response.to_sender
        else []
    | none => []
  let toTeam :=
    match context with
    | some c =>
        match truthyStr c.team_id with
        | some tid =>
            if ¬response.to_team.isEmpty then
              List.map (fun p => Emission.mk p.1 p.2 (Room.team tid)) response.to_team
            else []
        | none => []
    | none => []
  let toTeamOthers :=
    match context with
    | some c =>
        match truthyStr c.team_id with
        | some tid =>
            if ¬response.to_team_others.isEmpty then
              List.map (fun p => Emission.mk p.1 p.2 (Room.teamSkip tid c.session_id))
                response.to_team_others
            else []
        | none => []
    | none => []
  let toAdmin :=
    if response.to_admin.isEmpty then []
    else List.map (fun p => Emission.mk p.1 p.2 Room.admin) response.to_admin
  let toSpecific :=
    List.flatten (List.map
      (fun q => List.map (fun p => Emission.mk p.1 p.2 (Room.team q.1)) q.2)
      response.to_specific_team)
  let errorEms :=
    match context with
    | some c =>
        if ¬response.error.isEmpty ∧ c.session_id ≠ "" then
          [Emission.mk "error" (JVal.jobj response.error) (Room.sid c.session_id)]
        else []
    | none => []
  bcast ++ sender ++ toTeam ++ toTeamOthers ++ toAdmin ++ toSpecific ++ errorEms

/-- A registered game cartridge: the declared event names (`EVENTS`,
`ADMIN_EVENTS`, `GLOBAL_ADMIN_EVENTS` keys), the private `_state` dict
(`st`, as a JSON value), and the behaviour of `handle_event`,
`on_enter`, `on_exit` and `get_sanitized_state_data`.  The behaviour
functions return the state as the Python method left it (in-place
mutations survive an exception) together with either a returned
response (`.ok`) or a raised exception (`.error`). -/
structure Game where
  EVENTS : List String
  ADMIN_EVENTS : List String
  GLOBAL_ADMIN_EVENTS : List String
  st : JVal
  handleFn : String → JVal → EventContext → JVal → SessionManager →
    JVal × SessionManager × Except String EventResponse
  onEnterFn : StateData → JVal → SessionManager →
    JVal × SessionManager × Except String EventResponse
  onExitFn : JVal → SessionManager →
    JVal × SessionManager × Except String EventResponse
  sanitize : JVal → JVal

/-- `EventRouter` state: the active cartridge id, the Module Registry's
`_games` catalog, and the shared `SessionManager`. -/
structure RouterState where
  current_game_id : Option String
  games : AList Game
  sm : SessionManager

namespace EventRouter

/-- Step 1 of `EventRouter.handle_event`: build the `EventContext`
for a sender from the Registry (lines 23-54). -/
def buildContext (sm : SessionManager) (sid : String) : EventContext :=
  match sm.get_team_for_session sid with
  | none => ⟨sid, none, none, "", "", false⟩
  | some sv =>
      match sm.get_team sv.teamId with
      | none => ⟨sid, some sv.teamId, sv.playerId, "", "", false⟩
      | some team =>
          let player_name :=
            match truthyStr sv.playerId with
            | some pid =>
                (match AList.lookup team.players pid with
                 | some p => p.name
                 | none => "")
            | none => ""
          ⟨sid, some sv.teamId, sv.playerId, player_name, team.name, false⟩

/-- `EventRouter.handle_event(event_name, data, sid)`: route an event
to the current game and fan out the response; a raised handler
exception is caught and converted to a `GAME_ERROR` emission to the
sender only. -/
def handle_event (rs : RouterState) (event_name : String) (data : JVal) (sid : String) :
    RouterState × List Emission :=
  let context := buildContext rs.sm sid
  match rs.current_game_id with
  | none => (rs, [])
  | some gid =>
      match AList.lookup rs.games gid with
      | none => (rs, [])
      | some game =>
          if event_name ∉ game.EVENTS ∧ event_name ∉ game.ADMIN_EVENTS ∧
              event_name ∉ game.GLOBAL_ADMIN_EVENTS then
            (rs, [])
          else
            let r := game.handleFn event_name data context game.st rs.sm
            let rs' : RouterState :=
              { rs with games := AList.insert rs.games gid { game with st := r.1 },
                        sm := r.2.1 }
            match r.2.2 with
            | .ok response => (rs', processResponse response (some context))
            | .error msg =>
                (rs', [Emission.mk "error"
                  (JVal.jobj [("code", JVal.jstr "GAME_ERROR"), ("message", JVal.jstr msg)])
                  (Room.sid sid)])

/-- The tail of `EventRouter.set_state` once the new game is resolved
(`resolved_id` is the registry key the resolved instance lives under):
persist `(new_state, state_data)` via the Registry, run `on_enter`
(exceptions abort with `False`), then broadcast `state_change` — note
the payload carries `new_state`, not the resolved id. -/
def set_state_enter (rs : RouterState) (resolved_id new_state : String)
    (state_data : StateData) (new_game : Game) (exitEms : List Emission) :
    RouterState × List Emission × Bool :=
  let sm1 := rs.sm.set_state new_state state_data
  let r := new_game.onEnterFn state_data new_game.st sm1
  let g' : Game := { new_game with st := r.1 }
  let rs' : RouterState :=
    { rs with games := AList.insert rs.games resolved_id g', sm := r.2.1 }
  match r.2.2 with
  | .error _ => (rs', exitEms, false)
  | .ok resp =>
      let enterEms := processResponse resp none
      let sanitized := g'.sanitize g'.st
      let bcast := Emission.mk "state_change"
        (JVal.jobj [("current_state", JVal.jstr new_state), ("state_data", sanitized)])
        Room.all
      (rs', exitEms ++ enterEms ++ [bcast], true)

/-- `EventRouter.set_state(new_state, state_data)`: exit the current
game (exceptions swallowed), resolve the new id with fallback to
`'LOBBY'`, fail if even that is missing, else enter. -/
def set_state (rs : RouterState) (new_state : String) (state_data : StateData) :
    RouterState × List Emission × Bool :=
  let exited :=
    match rs.current_game_id with
    | none => (rs, ([] : List Emission))
    | some gid =>
        match AList.lookup rs.games gid with
        | none => (rs, [])
        | some g =>
            let r := g.onExitFn g.st rs.sm
            let rs' : RouterState :=
              { rs with games := AList.insert rs.games gid { g with st := r.1 },
                        sm := r.2.1 }
            match r.2.2 with
            | .ok resp => (rs', processResponse resp none)
            | .error _ => (rs', [])
  let rs1 := exited.1
  let exitEms := exited.2
  let rs2 : RouterState := { rs1 with current_game_id := some new_state }
  match AList.lookup rs2.games new_state with
  | some new_game => set_state_enter rs2 new_state new_state state_data new_game exitEms
  | none =>
      if new_state ≠ "LOBBY" then
        let rs3 : RouterState := { rs2 with current_game_id := some "LOBBY" }
        match AList.lookup rs3.games "LOBBY" with
        | some new_game => set_state_enter rs3 "LOBBY" new_state state_data new_game exitEms
        | none => (rs3, exitEms, false)
      else
        (rs2, exitEms, false)

end EventRouter

/-- The private `_state` of the Survival cartridge
(`src/server/games/survival/game.py`, `on_enter`). -/
structure SurvivalState where
  round_id : JVal
  question_text : String
  option_a : String
  option_b : String
  player_votes : AList String
  revealed : Bool

namespace SurvivalGame

/-- `POINTS_FOR_MAJORITY = 100`. -/
def POINTS_FOR_MAJORITY : Int := 100

/-- `_get_vote_counts`: `(count_a, count_b)` over all player votes. -/
def get_vote_counts (player_votes : AList String) : Nat × Nat :=
  (List.countP (fun p => p.2 == "A") player_votes,
   List.countP (fun p => p.2 == "B") player_votes)

/-- `_get_team_votes(team_id)`: the votes of players on that team. -/
def get_team_votes (sm : SessionManager) (player_votes : AList String)
    (team_id : String) : AList String :=
  match sm.get_team team_id with
  | none => []
  | some team =>
      let team_player_ids := AList.keys team.players
      List.filter (fun p => team_player_ids.contains p.1) player_votes

/-- The game-wide majority computation of `handle_reveal`
(`'A'`, `'B'`, or `None` on a tie). -/
def game_majority_of (player_votes : AList String) : Option String :=
  let counts := get_vote_counts player_votes
  if counts.1 > counts.2 then some "A"
  else if counts.2 > counts.1 then some "B"
  else none

/-- The per-team majority computation of `handle_reveal`
(`'A'`, `'B'`, or `None` on a tie within the team). -/
def team_majority_of (team_votes : AList String) : Option String :=
  let team_a := List.countP (fun p => p.2 == "A") team_votes
  let team_b := List.countP (fun p => p.2 == "B") team_votes
  if team_a > team_b then some "A"
  else if team_b > team_a then some "B"
  else none

/-- The `team_info` dict assembled in the reveal loop. -/
def team_info_json (team_id team_name : String) (team_majority : Option String)
    (votes_a votes_b : Nat) : List (String × JVal) :=
  [("team_id", JVal.jstr team_id),
   ("team_name", JVal.jstr team_name),
   ("team_majority", match team_majority with | some m => JVal.jstr m | none => JVal.null),
   ("votes_a", JVal.jnum votes_a),
   ("votes_b", JVal.jnum votes_b)]

/-- One iteration of `handle_reveal`'s team loop.  The accumulator
carries the threaded `SessionManager` (scores mutate as the loop runs)
and the `teams_awarded` / `teams_not_awarded` lists (each entry keeps
the team id alongside its info dict, which the admin summary needs). -/
def reveal_step (player_votes : AList String) (game_majority : Option String)
    (acc : SessionManager × List (String × JVal) × List (String × JVal))
    (team_id : String) :
    SessionManager × List (String × JVal) × List (String × JVal) :=
  let sm := acc.1
  let awarded := acc.2.1
  let not_awarded := acc.2.2
  match sm.get_team team_id with
  | none => acc
  | some team =>
      let team_votes := get_team_votes sm player_votes team_id
      if team_votes.isEmpty then
        let info := JVal.jobj (team_info_json team_id team.name none 0 0 ++
          [("reason", JVal.jstr "no_votes")])
        (sm, awarded, not_awarded ++ [(team_id, info)])
      else
        let team_majority := team_majority_of team_votes
        let team_a := List.countP (fun p => p.2 == "A") team_votes
        let team_b := List.countP (fun p => p.2 == "B") team_votes
        let base := team_info_json team_id team.name team_majority team_a team_b
        match game_majority with
        | some gm =>
            if team_majority = some gm then
              let sm' := (sm.add_points team_id POINTS_FOR_MAJORITY).2
              let info := JVal.jobj (base ++ [("points_awarded", JVal.jnum POINTS_FOR_MAJORITY)])
              (sm', awarded ++ [(team_id, info)], not_awarded)
            else
              let reason := if team_majority.isNone then "team_tie" else "minority"
              let info := JVal.jobj (base ++
                [("points_awarded", JVal.jnum 0), ("reason", JVal.jstr reason)])
              (sm, awarded, not_awarded ++ [(team_id, info)])
        | none =>
            let info := JVal.jobj (base ++
              [("points_awarded", JVal.jnum 0), ("reason", JVal.jstr "game_tie")])
            (sm, awarded, not_awarded ++ [(team_id, info)])

/-- `SurvivalGame.handle_reveal`: determine the game-wide majority,
award `POINTS_FOR_MAJORITY` to each aligned team, mark the round
revealed and broadcast the results. -/
def handle_reveal (st : SurvivalState) (sm : SessionManager) :
    SurvivalState × SessionManager × EventResponse :=
  if st.player_votes.isEmpty then
    (st, sm, { EventResponse.empty with
      error := [("code", JVal.jstr "NO_VOTES"), ("message", JVal.jstr "No votes to reveal")] })
  else
    let counts := get_vote_counts st.player_votes
    let game_majority := game_majority_of st.player_votes
    let init : SessionManager × List (String × JVal) × List (String × JVal) := (sm, [], [])
    let res := List.foldl (reveal_step st.player_votes game_majority) init
      (AList.keys sm.teams)
    let sm' := res.1
    let awarded := res.2.1
    let not_awarded := res.2.2
    let st' := { st with revealed := true }
    let vote_counts_json := JVal.jobj [("A", JVal.jnum counts.1), ("B", JVal.jnum counts.2)]
    let gm_json := match game_majority with | some m => JVal.jstr m | none => JVal.null
    let response : EventResponse :=
      { EventResponse.empty with
        broadcast := [("survival_reveal", JVal.jobj
          [("game_majority", gm_json),
           ("vote_counts", vote_counts_json),
           ("teams_awarded", JVal.jarr (List.map (fun p => p.2) awarded)),
           ("teams_not_awarded", JVal.jarr (List.map (fun p => p.2) not_awarded)),
           ("points_value", JVal.jnum POINTS_FOR_MAJORITY),
           ("is_tie", JVal.jbool game_majority.isNone)])],
        to_admin := [("survival_round_complete", JVal.jobj
          [("game_majority", gm_json),
           ("vote_counts", vote_counts_json),
           ("teams_awarded", JVal.jarr (List.map (fun p => JVal.jstr p.1) awarded)),
           ("teams_not_awarded", JVal.jarr (List.map (fun p => JVal.jstr p.1) not_awarded))])] }
    (st', sm', response)

end SurvivalGame

/-- Registry states reachable from a fresh start (`fresh none`) by the
public `SessionManager` operations.  Random join-code candidates are
constrained to come from `generate_join_code` (call `n` consumes picks
`4n..4n+3`), and `uuid.uuid4()` team ids are assumed fresh
(`hfresh`) — the code relies on uuid uniqueness. -/
inductive Reachable : SessionManager → Prop where
  | init :
      Reachable (SessionManager.fresh none)
  | create_team {s : SessionManager} {tn pn sid : String} {now : Nat}
      {tid pid : String} {pick : Nat → Fin 31} {fuel : Nat}
      {r : TeamResult} {s' : SessionManager}
      (hr : Reachable s)
      (hfresh : tid ∉ AList.keys s.teams)
      (h : s.create_team tn pn sid now tid pid
        (fun n => generate_join_code pick (4 * n)) fuel = some (r, s')) :
      Reachable s'
  | join_team {s : SessionManager} {jc pn sid : String} {now : Nat}
      {pid : String} {r : TeamResult} {s' : SessionManager}
      (hr : Reachable s)
      (h : s.join_team jc pn sid now pid = some (r, s')) :
      Reachable s'
  | reassociate {s : SessionManager} {sid tid pid : String} {now : Nat}
      (hr : Reachable s) :
      Reachable (s.reassociate_session sid tid pid now).2
  | add_points {s : SessionManager} {tid : String} {pts : Int}
      (hr : Reachable s) :
      Reachable (s.add_points tid pts).2
  | reset_game {s : SessionManager} {preserve : Bool}
      (hr : Reachable s) :
      Reachable (s.reset_game preserve)
  | kick_team {s : SessionManager} {tid : String}
      (hr : Reachable s) :
      Reachable (s.kick_team tid).2
  | set_team_avatar {s : SessionManager} {tid av : String}
      (hr : Reachable s) :
      Reachable (s.set_team_avatar tid av).2
  | toggle_elimination {s : SessionManager} {tid : String} {e : Bool}
      (hr : Reachable s) :
      Reachable (s.toggle_elimination tid e).2
  | touch_session {s : SessionManager} {sid : String} {now : Nat}
      (hr : Reachable s) :
      Reachable (s.touch_session sid now)
  | set_state {s : SessionManager} {st : String} {sd : StateData}
      (hr : Reachable s) :
      Reachable (s.set_state st sd)

/-- The join-code invariant maintained by every Registry operation:
team keys are distinct, the `join_codes` index is exactly the
code → id projection of the teams dict (in order), codes are pairwise
distinct, and every code is 4 characters from the restricted
alphabet. -/
structure Inv (s : SessionManager) : Prop where
  keys_nodup : (AList.keys s.teams).Nodup
  codes_eq : s.join_codes = List.map (fun p => (p.2.join_code, p.1)) s.teams
  codes_nodup : (List.map (fun p => p.2.join_code) s.teams).Nodup
  code_wf : ∀ p ∈ s.teams, p.2.join_code.length = 4 ∧
    ∀ c ∈ p.2.join_code.toList, c ∈ JOIN_CODE_CHARS

/-- The score bonus `handle_reveal` pays a team: `POINTS_FOR_MAJORITY`
exactly when the game-wide vote has a strict plurality and the team's
internal majority matches it, else nothing. -/
def SurvivalGame.bonus (sm : SessionManager) (votes : AList String)
    (gm : Option String) (tid : String) : Int :=
  match gm with
  | some m =>
      if SurvivalGame.team_majority_of (SurvivalGame.get_team_votes sm votes tid) = some m
      then SurvivalGame.POINTS_FOR_MAJORITY else 0
  | none => 0

/-- `sm` agrees with `sm0` except that team `tid`'s score has drifted
by `f tid` (and all non-team state is unconstrained). -/
def ScoreAgree (sm0 sm : SessionManager) (f : String → Int) : Prop :=
  ∀ tid, AList.lookup sm.teams tid =
    Option.map (fun t => { t with score := t.score + f tid }) (AList.lookup sm0.teams tid)

/-- `BaseGame.handle_event` for a cartridge with no game events of its
own: only the inherited global music handlers resolve; anything else
yields the `UNKNOWN_EVENT` error response. -/
def baseGameHandle (gst : JVal) (sm : SessionManager) (ev : String) :
    JVal × SessionManager × Except String EventResponse :=
  if ev = "music_toggle" then
    (gst, sm, .ok { EventResponse.empty with broadcast := [("music_toggle", JVal.jobj [])] })
  else if ev = "music_next" then
    (gst, sm, .ok { EventResponse.empty with broadcast := [("music_next", JVal.jobj [])] })
  else if ev = "music_previous" then
    (gst, sm, .ok { EventResponse.empty with broadcast := [("music_previous", JVal.jobj [])] })
  else
    (gst, sm, .ok { EventResponse.empty with
      error := [("code", JVal.jstr "UNKNOWN_EVENT"),
                ("message", JVal.jstr ("Unknown event: " ++ ev))] })

/-- The `LOBBY` cartridge (`games/lobby/game.py`): `on_enter` stores
`state_data` as its `_state`, `on_exit` does nothing, and the default
`get_sanitized_state_data` returns the state unchanged. -/
def LobbyGame : Game :=
  { EVENTS := [],
    ADMIN_EVENTS := [],
    GLOBAL_ADMIN_EVENTS := ["music_toggle", "music_next", "music_previous"],
    st := JVal.jobj [],
    handleFn := fun ev _data _ctx gst sm => baseGameHandle gst sm ev,
    onEnterFn := fun sd _gst sm => (JVal.jobj sd, sm, Except.ok EventResponse.empty),
    onExitFn := fun gst sm => (gst, sm, Except.ok EventResponse.empty),
    sanitize := fun gst => gst }

/-- A cartridge whose `boom_event` handler always raises. -/
def CrashGame : Game :=
  { EVENTS := ["boom_event"],
    ADMIN_EVENTS := [],
    GLOBAL_ADMIN_EVENTS := ["music_toggle", "music_next", "music_previous"],
    st := JVal.jobj [],
    handleFn := fun _ev _data _ctx gst sm => (gst, sm, Except.error "boom"),
    onEnterFn := fun sd _gst sm => (JVal.jobj sd, sm, Except.ok EventResponse.empty),
    onExitFn := fun gst sm => (gst, sm, Except.ok EventResponse.empty),
    sanitize := fun gst => gst }

/-- Router with only the default cartridge registered, sitting in the
lobby. -/
def lobbyOnlyRS : RouterState :=
  ⟨some "LOBBY", [("LOBBY", LobbyGame)], SessionManager.fresh none⟩

/-- Router whose active cartridge is `TRIVIA`; neither the target of
the transition below nor `LOBBY` is registered. -/
def noLobbyRS : RouterState :=
  ⟨some "TRIVIA", [("TRIVIA", LobbyGame)], SessionManager.fresh none⟩

/-- Router hosting the always-raising cartridge. -/
def crashRS : RouterState :=
  ⟨some "CRASH", [("CRASH", CrashGame)], SessionManager.fresh none⟩

/-- A concrete random stream: always the first alphabet symbol. -/
def witnessPick : Nat → Fin 31 := fun _ => ⟨0, by decide⟩

/-- The Registry state after one successful `create_team` on a fresh
instance (team "Alpha", player "Ada", join code "AAAA"). -/
def witnessState : SessionManager :=
  afterCreate (SessionManager.fresh none) "Alpha" "Ada" "sid1" 0 "team-1" "player-1" "AAAA"

/-- The result dict of that `create_team` call. -/
def witnessResult : TeamResult :=
  ⟨true, some "team-1", some "player-1", "Alpha", "Ada", "AAAA", some 1,
   [("player-1", "Ada")], "Team created successfully"⟩

/-- A two-player team for the Survival scenario. -/
def survTeamA : Team :=
  ⟨"Reds", 0, "active", false, "AAAA", 1, none, [("p1", ⟨"Ann", 0⟩), ("p2", ⟨"Bob", 0⟩)]⟩

/-- A one-player team for the Survival scenario. -/
def survTeamB : Team :=
  ⟨"Blues", 0, "active", false, "BBBB", 2, none, [("p3", ⟨"Cal", 0⟩)]⟩

/-- A Registry hosting the two Survival teams. -/
def survSM : SessionManager :=
  ⟨[("T1", survTeamA), ("T2", survTeamB)], [], [("AAAA", "T1"), ("BBBB", "T2")],
   "SURVIVAL", [], none⟩

/-- A Survival round where the teams voted oppositely (2 x A vs 1 x B). -/
def survState : SurvivalState :=
  ⟨JVal.null, "q", "YES", "NO", [("p1", "A"), ("p2", "A"), ("p3", "B")], false⟩


namespace AList

theorem lookup_insert_self {V : Type} (l : AList V) (k : String) (v : V) :
    AList.lookup (AList.insert l k v) k = some v := by
  induction l with
  | nil => simp [AList.insert, AList.lookup]
  | cons hd tl ih =>
      obtain ⟨k', v'⟩ := hd
      by_cases h : k' = k
      · subst h
        simp [AList.insert, AList.lookup]
      · simp [AList.insert, AList.lookup, h, ih]

theorem lookup_insert_ne {V : Type} (l : AList V) (k k' : String) (v : V)
    (h : k ≠ k') : AList.lookup (AList.insert l k v) k' = AList.lookup l k' := by
  induction l with
  | nil => simp [AList.insert, AList.lookup, h]
  | cons hd tl ih =>
      obtain ⟨k₀, v₀⟩ := hd
      by_cases h₀ : k₀ = k
      · subst h₀
        simp [AList.insert, AList.lookup, h]
      · by_cases h₁ : k₀ = k'
        · subst h₁
          simp [AList.insert, AList.lookup, h₀]
        · simp [AList.insert, AList.lookup, h₀, h₁, ih]

theorem lookup_eq_none_of_not_mem_keys {V : Type} (l : AList V) (k : String)
    (h : k ∉ AList.keys l) : AList.lookup l k = none := by
  induction l with
  | nil => rfl
  | cons hd tl ih =>
      obtain ⟨k₀, v₀⟩ := hd
      simp only [AList.keys, List.map_cons, List.mem_cons] at h
      push_neg at h
      have h1 : k₀ ≠ k := fun hh => h.1 hh.symm
      simp only [AList.lookup, if_neg h1]
      exact ih h.2

theorem mem_keys_of_lookup_eq_some {V : Type} {l : AList V} {k : String} {v : V}
    (h : AList.lookup l k = some v) : k ∈ AList.keys l := by
  induction l with
  | nil => simp [AList.lookup] at h
  | cons hd tl ih =>
      obtain ⟨k₀, v₀⟩ := hd
      simp only [AList.lookup] at h
      by_cases h₀ : k₀ = k
      · subst h₀
        simp [AList.keys]
      · simp only [if_neg h₀] at h
        simp only [AList.keys, List.map_cons, List.mem_cons]
        exact Or.inr (ih h)

theorem lookup_erase_self {V : Type} (l : AList V) (k : String)
    (hnd : (AList.keys l).Nodup) : AList.lookup (AList.erase l k) k = none := by
  induction l with
  | nil => simp [AList.erase, AList.lookup]
  | cons hd tl ih =>
      obtain ⟨k₀, v₀⟩ := hd
      simp only [AList.keys, List.map_cons, List.nodup_cons] at hnd
      by_cases h₀ : k₀ = k
      · subst h₀
        simp only [AList.erase, if_pos rfl]
        exact lookup_eq_none_of_not_mem_keys tl k₀ hnd.1
      · simp only [AList.erase, if_neg h₀, AList.lookup, if_neg h₀]
        exact ih hnd.2

theorem lookup_erase_ne {V : Type} (l : AList V) (k k' : String)
    (h : k ≠ k') : AList.lookup (AList.erase l k) k' = AList.lookup l k' := by
  induction l with
  | nil => simp [AList.erase, AList.lookup]
  | cons hd tl ih =>
      obtain ⟨k₀, v₀⟩ := hd
      by_cases h₀ : k₀ = k
      · subst h₀
        simp [AList.erase, AList.lookup, h]
      · simp [AList.erase, AList.lookup, h₀, ih]

theorem keys_insert_of_not_mem {V : Type} (l : AList V) (k : String) (v : V)
    (h : k ∉ AList.keys l) :
    AList.keys (AList.insert l k v) = AList.keys l ++ [k] := by
  induction l with
  | nil => simp [AList.insert, AList.keys]
  | cons hd tl ih =>
      obtain ⟨k₀, v₀⟩ := hd
      simp only [AList.keys, List.map_cons, List.mem_cons] at h
      push_neg at h
      have h1 : k₀ ≠ k := fun hh => h.1 hh.symm
      simp only [AList.insert, if_neg h1, AList.keys, List.map_cons, List.cons_append,
        List.cons.injEq, true_and]
      exact ih h.2

theorem keys_insert_of_mem {V : Type} (l : AList V) (k : String) (v : V)
    (h : k ∈ AList.keys l) : AList.keys (AList.insert l k v) = AList.keys l := by
  induction l with
  | nil => simp [AList.keys] at h
  | cons hd tl ih =>
      obtain ⟨k₀, v₀⟩ := hd
      by_cases h₀ : k₀ = k
      · subst h₀
        simp [AList.insert, AList.keys]
      · simp only [AList.keys, List.map_cons, List.mem_cons] at h
        rcases h with h | h
        · exact absurd h.symm h₀
        · simp only [AList.insert, if_neg h₀, AList.keys, List.map_cons, List.cons.injEq, true_and]
          exact ih h

theorem keys_erase_sublist {V : Type} (l : AList V) (k : String) :
    (AList.keys (AList.erase l k)).Sublist (AList.keys l) := by
  induction l with
  | nil => simp [AList.erase, AList.keys]
  | cons hd tl ih =>
      obtain ⟨k₀, v₀⟩ := hd
      by_cases h₀ : k₀ = k
      · subst h₀
        simp only [AList.erase, if_pos rfl, AList.keys, List.map_cons]
        exact List.sublist_cons_self _ _
      · simp only [AList.erase, if_neg h₀, AList.keys, List.map_cons]
        exact List.Sublist.cons₂ _ ih

theorem erase_sublist {V : Type} (l : AList V) (k : String) :
    (AList.erase l k).Sublist l := by
  induction l with
  | nil => simp [AList.erase]
  | cons hd tl ih =>
      obtain ⟨k₀, v₀⟩ := hd
      by_cases h₀ : k₀ = k
      · subst h₀
        simp only [AList.erase, if_pos rfl]
        exact List.sublist_cons_self _ _
      · simp only [AList.erase, if_neg h₀]
        exact List.Sublist.cons₂ _ ih

theorem insert_of_not_mem_keys {V : Type} (l : AList V) (k : String) (v : V)
    (h : k ∉ AList.keys l) : AList.insert l k v = l ++ [(k, v)] := by
  induction l with
  | nil => simp [AList.insert]
  | cons hd tl ih =>
      obtain ⟨k₀, v₀⟩ := hd
      simp only [AList.keys, List.map_cons, List.mem_cons] at h
      push_neg at h
      have h1 : k₀ ≠ k := fun hh => h.1 hh.symm
      simp only [AList.insert, if_neg h1, List.cons_append, List.cons.injEq, true_and]
      exact ih h.2

theorem lookup_some_mem {V : Type} {l : AList V} {k : String} {v : V}
    (h : AList.lookup l k = some v) : (k, v) ∈ l := by
  induction l with
  | nil => simp [AList.lookup] at h
  | cons hd tl ih =>
      obtain ⟨k₀, v₀⟩ := hd
      simp only [AList.lookup] at h
      by_cases h₀ : k₀ = k
      · subst h₀
        simp at h
        subst h
        exact List.mem_cons_self _ _
      · simp only [if_neg h₀] at h
        exact List.mem_cons_of_mem _ (ih h)

theorem lookup_isSome_of_mem_keys {V : Type} {l : AList V} {k : String}
    (h : k ∈ AList.keys l) : (AList.lookup l k).isSome := by
  induction l with
  | nil => simp [AList.keys] at h
  | cons hd tl ih =>
      obtain ⟨k₀, v₀⟩ := hd
      by_cases h₀ : k₀ = k
      · subst h₀
        simp [AList.lookup]
      · simp only [AList.keys, List.map_cons, List.mem_cons] at h
        rcases h with h | h
        · exact absurd h.symm h₀
        · simp only [AList.lookup, if_neg h₀]
          exact ih h

theorem mem_insert {V : Type} {l : AList V} {k : String} {v : V} {p : String × V}
    (h : p ∈ AList.insert l k v) : p ∈ l ∨ p = (k, v) := by
  induction l with
  | nil => simpa [AList.insert] using h
  | cons hd tl ih =>
      obtain ⟨k₀, v₀⟩ := hd
      by_cases h₀ : k₀ = k
      · subst h₀
        have hins : AList.insert ((k₀, v₀) :: tl) k₀ v = (k₀, v) :: tl := by
          simp [AList.insert]
        rw [hins] at h
        rcases List.mem_cons.mp h with h | h
        · exact Or.inr h
        · exact Or.inl (List.mem_cons_of_mem _ h)
      · have hins : AList.insert ((k₀, v₀) :: tl) k v =
            (k₀, v₀) :: AList.insert tl k v := by
          simp [AList.insert, h₀]
        rw [hins] at h
        rcases List.mem_cons.mp h with h | h
        · refine Or.inl ?_
          rw [h]
          exact List.mem_cons_self _ _
        · rcases ih h with h' | h'
          · exact Or.inl (List.mem_cons_of_mem _ h')
          · exact Or.inr h'

theorem map_insert_existing {V β : Type} (g : String × V → β) (l : AList V)
    (k : String) (v v' : V) (hlk : AList.lookup l k = some v) (hg : g (k, v') = g (k, v)) :
    List.map g (AList.insert l k v') = List.map g l := by
  induction l with
  | nil => simp [AList.lookup] at hlk
  | cons hd tl ih =>
      obtain ⟨k₀, v₀⟩ := hd
      simp only [AList.lookup] at hlk
      by_cases h₀ : k₀ = k
      · subst h₀
        simp at hlk
        subst hlk
        simp only [AList.insert, List.map_cons]
        simp only [if_pos]
        simp only [List.map_cons, List.cons.injEq]
        exact ⟨hg, trivial⟩
      · simp only [if_neg h₀] at hlk
        simp only [AList.insert, if_neg h₀, List.map_cons, List.cons.injEq, true_and]
        exact ih hlk

end AList

theorem gen_code_loop_ok (codeGen : Nat → String) (used : AList String) :
    ∀ (fuel i : Nat) (c : String), gen_code_loop codeGen used fuel i = some c →
      (∃ j, c = codeGen j) ∧ AList.contains used c = false := by
  intro fuel
  induction fuel with
  | zero => intro i c h; simp [gen_code_loop] at h
  | succ n ih =>
      intro i c h
      simp only [gen_code_loop] at h
      by_cases hc : AList.contains used (codeGen i)
      · simp only [if_pos hc] at h
        exact ih (i + 1) c h
      · simp only [if_neg hc] at h
        simp only [Option.some.injEq] at h
        subst h
        exact ⟨⟨i, rfl⟩, by simpa using hc⟩

theorem generate_join_code_length (pick : Nat → Fin 31) (start : Nat) :
    (generate_join_code pick start).length = 4 := rfl

theorem generate_join_code_chars (pick : Nat → Fin 31) (start : Nat) :
    ∀ c ∈ (generate_join_code pick start).toList, c ∈ JOIN_CODE_CHARS := by
  intro c hc
  simp only [generate_join_code, String.toList, String.mk, List.mem_map] at hc
  obtain ⟨i, _, rfl⟩ := hc
  exact List.get_mem _ _ _

theorem reconnect_result_spec {s : SessionManager} {sid : String} {r : TeamResult}
    (h : s.reconnect_result sid = some r) :
    ∃ sv team, AList.lookup s.sessions sid = some sv ∧
      AList.lookup s.teams sv.teamId = some team ∧
      r.success = true ∧ r.team_id = some sv.teamId ∧ r.player_id = sv.playerId := by
  unfold SessionManager.reconnect_result at h
  cases hs : AList.lookup s.sessions sid with
  | none => simp only [hs] at h; exact absurd h (by simp)
  | some sv =>
      simp only [hs] at h
      cases ht : AList.lookup s.teams sv.teamId with
      | none => simp only [ht] at h; exact absurd h (by simp)
      | some team =>
          simp only [ht, Option.some.injEq] at h
          refine ⟨sv, team, rfl, ht, ?_, ?_, ?_⟩ <;> rw [← h]

theorem create_team_spec (s : SessionManager) (tn pn sid : String) (now : Nat)
    (tid pid : String) (cg : Nat → String) (fuel : Nat) (r : TeamResult)
    (s' : SessionManager)
    (h : s.create_team tn pn sid now tid pid cg fuel = some (r, s')) :
    (r.success = false ∧ s' = s) ∨
    (¬(pyStrip tn = "" ∨ (pyStrip tn).length > 20) ∧ ¬(pyStrip pn = "" ∨ (pyStrip pn).length > 20) ∧
      s.reconnect_result sid = some r ∧ s' = s) ∨
    (¬(pyStrip tn = "" ∨ (pyStrip tn).length > 20) ∧ ¬(pyStrip pn = "" ∨ (pyStrip pn).length > 20) ∧
      s.reconnect_result sid = none ∧
      ∃ code, gen_code_loop cg s.join_codes fuel 0 = some code ∧
        s' = afterCreate s tn pn sid now tid pid code ∧
        r.success = true ∧ r.team_id = some tid ∧ r.player_id = some pid ∧
        r.join_code = code) := by
  unfold SessionManager.create_team at h
  by_cases h1 : pyStrip tn = "" ∨ (pyStrip tn).length > 20
  · rw [if_pos h1] at h
    simp only [Option.some.injEq, Prod.mk.injEq] at h
    exact Or.inl ⟨by rw [← h.1]; rfl, h.2.symm⟩
  · rw [if_neg h1] at h
    by_cases h2 : pyStrip pn = "" ∨ (pyStrip pn).length > 20
    · rw [if_pos h2] at h
      simp only [Option.some.injEq, Prod.mk.injEq] at h
      exact Or.inl ⟨by rw [← h.1]; rfl, h.2.symm⟩
    · rw [if_neg h2] at h
      cases hrec : s.reconnect_result sid with
      | some r0 =>
          simp only [hrec, Option.some.injEq, Prod.mk.injEq] at h
          exact Or.inr (Or.inl ⟨h1, h2, by rw [h.1], h.2.symm⟩)
      | none =>
          simp only [hrec] at h
          by_cases h3 : List.any s.teams (fun p => pyLower p.2.name = pyLower (pyStrip tn))
          · rw [if_pos h3] at h
            simp only [Option.some.injEq, Prod.mk.injEq] at h
            exact Or.inl ⟨by rw [← h.1]; rfl, h.2.symm⟩
          · rw [if_neg h3] at h
            cases hloop : gen_code_loop cg s.join_codes fuel 0 with
            | none => simp only [hloop] at h; exact absurd h (by simp)
            | some code =>
                simp only [hloop, Option.some.injEq, Prod.mk.injEq] at h
                refine Or.inr (Or.inr ⟨h1, h2, rfl, code, rfl, ?_, ?_, ?_, ?_, ?_⟩)
                · rw [← h.2]; rfl
                · rw [← h.1]
                · rw [← h.1]
                · rw [← h.1]
                · rw [← h.1]

theorem join_team_spec (s : SessionManager) (jc pn sid : String) (now : Nat)
    (pid : String) (r : TeamResult) (s' : SessionManager)
    (h : s.join_team jc pn sid now pid = some (r, s')) :
    (r.success = false ∧ s' = s) ∨
    (s.reconnect_result sid = some r ∧ s' = s) ∨
    (∃ team_id team, AList.lookup s.join_codes (pyUpper (pyStrip jc)) = some team_id ∧
       AList.lookup s.teams team_id = some team ∧
       s' = afterJoin s pn sid now pid team_id team ∧
       r.success = true ∧ r.team_id = some team_id ∧ r.player_id = some pid) := by
  unfold SessionManager.join_team at h
  by_cases h1 : pyStrip pn = "" ∨ (pyStrip pn).length > 20
  · rw [if_pos h1] at h
    simp only [Option.some.injEq, Prod.mk.injEq] at h
    exact Or.inl ⟨by rw [← h.1]; rfl, h.2.symm⟩
  · rw [if_neg h1] at h
    cases hrec : s.reconnect_result sid with
    | some r0 =>
        simp only [hrec, Option.some.injEq, Prod.mk.injEq] at h
        exact Or.inr (Or.inl ⟨by rw [h.1], h.2.symm⟩)
    | none =>
        simp only [hrec] at h
        cases hjc : AList.lookup s.join_codes (pyUpper (pyStrip jc)) with
        | none =>
            simp only [hjc, Option.some.injEq, Prod.mk.injEq] at h
            exact Or.inl ⟨by rw [← h.1]; rfl, h.2.symm⟩
        | some team_id =>
            simp only [hjc] at h
            cases ht : AList.lookup s.teams team_id with
            | none => simp only [ht] at h; exact absurd h (by simp)
            | some team =>
                simp only [ht] at h
                by_cases h2 : List.any team.players (fun p => pyLower p.2.name = pyLower (pyStrip pn))
                · rw [if_pos h2] at h
                  simp only [Option.some.injEq, Prod.mk.injEq] at h
                  exact Or.inl ⟨by rw [← h.1]; rfl, h.2.symm⟩
                · rw [if_neg h2] at h
                  simp only [Option.some.injEq, Prod.mk.injEq] at h
                  refine Or.inr (Or.inr ⟨team_id, team, rfl, ht, ?_, ?_, ?_, ?_⟩)
                  · rw [← h.2]; rfl
                  · rw [← h.1]
                  · rw [← h.1]
                  · rw [← h.1]

theorem erase_codes_comm (l : AList Team) (tid : String) (team : Team)
    (hlk : AList.lookup l tid = some team)
    (hnd : (List.map (fun p => p.2.join_code) l).Nodup) :
    AList.erase (List.map (fun p => (p.2.join_code, p.1)) l) team.join_code
      = List.map (fun p => (p.2.join_code, p.1)) (AList.erase l tid) := by
  induction l with
  | nil => simp [AList.lookup] at hlk
  | cons hd tl ih =>
      obtain ⟨k₀, t₀⟩ := hd
      simp only [AList.lookup] at hlk
      simp only [List.map_cons, List.nodup_cons] at hnd
      by_cases h₀ : k₀ = tid
      · subst h₀
        simp at hlk
        subst hlk
        simp [AList.erase]
      · simp only [if_neg h₀] at hlk
        have hmem : team.join_code ∈ List.map (fun p => p.2.join_code) tl :=
          List.mem_map_of_mem _ (AList.lookup_some_mem hlk)
        have hne : t₀.join_code ≠ team.join_code := fun he => hnd.1 (he ▸ hmem)
        simp only [List.map_cons, AList.erase, if_neg hne, if_neg h₀]
        rw [ih hlk hnd.2]

/-- `Inv` only looks at the teams dict and the join-code index. -/
theorem Inv.congr {s s' : SessionManager} (inv : Inv s)
    (hteams : s'.teams = s.teams) (hcodes : s'.join_codes = s.join_codes) : Inv s' := by
  refine ⟨?_, ?_, ?_, ?_⟩ <;> rw [hteams]
  · exact inv.keys_nodup
  · rw [hcodes]; exact inv.codes_eq
  · exact inv.codes_nodup
  · exact inv.code_wf

/-- In-place update of an existing team that keeps its join code
preserves the invariant. -/
theorem Inv.update_team {s : SessionManager} (inv : Inv s) (tid : String)
    (team team' : Team) (hlk : AList.lookup s.teams tid = some team)
    (hcode : team'.join_code = team.join_code) {s' : SessionManager}
    (hteams : s'.teams = AList.insert s.teams tid team')
    (hcodes : s'.join_codes = s.join_codes) : Inv s' := by
  refine ⟨?_, ?_, ?_, ?_⟩
  · rw [hteams, AList.keys_insert_of_mem _ _ _ (AList.mem_keys_of_lookup_eq_some hlk)]
    exact inv.keys_nodup
  · rw [hcodes, hteams, inv.codes_eq]
    exact (AList.map_insert_existing (fun p => (p.2.join_code, p.1)) s.teams tid team team'
      hlk (by simp [hcode])).symm
  · rw [hteams]
    have hmap := AList.map_insert_existing (fun p => p.2.join_code) s.teams tid team team'
      hlk (by simp [hcode])
    rw [hmap]
    exact inv.codes_nodup
  · rw [hteams]
    intro p hp
    rcases AList.mem_insert hp with hmem | hmem
    · exact inv.code_wf p hmem
    · subst hmem
      have := inv.code_wf (tid, team) (AList.lookup_some_mem hlk)
      simpa [hcode] using this

/-- Keys of the join-code index are the team codes, in order. -/
theorem keys_codes_eq {s : SessionManager} (inv : Inv s) :
    AList.keys s.join_codes = List.map (fun p => p.2.join_code) s.teams := by
  rw [inv.codes_eq]
  simp [AList.keys, List.map_map, Function.comp]

/-- The creation path of `create_team` preserves the invariant,
provided the team id is fresh and the chosen code is fresh, 4 chars
long and drawn from the alphabet. -/
theorem inv_afterCreate {s : SessionManager} (inv : Inv s) {tn pn sid : String}
    {now : Nat} {tid pid code : String} (hfresh : tid ∉ AList.keys s.teams)
    (hcontains : AList.contains s.join_codes code = false)
    (hlen : code.length = 4) (hchars : ∀ c ∈ code.toList, c ∈ JOIN_CODE_CHARS) :
    Inv (afterCreate s tn pn sid now tid pid code) := by
  have hcodeFresh : code ∉ AList.keys s.join_codes := by
    intro hmem
    have hsome := AList.lookup_isSome_of_mem_keys hmem
    simp only [AList.contains] at hcontains
    rw [hcontains] at hsome
    simp at hsome
  have hcodeFresh' : code ∉ List.map (fun p => p.2.join_code) s.teams := by
    rw [← keys_codes_eq inv]; exact hcodeFresh
  have hteams : AList.insert s.teams tid (newTeam tn pn now pid code s.assign_team_color)
      = s.teams ++ [(tid, newTeam tn pn now pid code s.assign_team_color)] :=
    AList.insert_of_not_mem_keys _ _ _ hfresh
  have hcodes : AList.insert s.join_codes code tid = s.join_codes ++ [(code, tid)] :=
    AList.insert_of_not_mem_keys _ _ _ hcodeFresh
  refine ⟨?_, ?_, ?_, ?_⟩
  · show (AList.keys (AList.insert s.teams tid
      (newTeam tn pn now pid code s.assign_team_color))).Nodup
    rw [hteams]
    simp only [AList.keys, List.map_append, List.map_cons, List.map_nil]
    rw [List.nodup_append]
    refine ⟨inv.keys_nodup, List.nodup_singleton _, ?_⟩
    intro a ha hmem
    simp only [List.mem_singleton] at hmem
    subst hmem
    exact hfresh ha
  · show AList.insert s.join_codes code tid = List.map (fun p => (p.2.join_code, p.1))
      (AList.insert s.teams tid (newTeam tn pn now pid code s.assign_team_color))
    rw [hcodes, hteams, inv.codes_eq, List.map_append]
    rfl
  · show (List.map (fun p => p.2.join_code)
      (AList.insert s.teams tid (newTeam tn pn now pid code s.assign_team_color))).Nodup
    rw [hteams]
    simp only [List.map_append, List.map_cons, List.map_nil]
    rw [List.nodup_append]
    refine ⟨inv.codes_nodup, List.nodup_singleton _, ?_⟩
    intro a ha hmem
    simp only [List.mem_singleton] at hmem
    subst hmem
    exact hcodeFresh' ha
  · show ∀ p ∈ AList.insert s.teams tid (newTeam tn pn now pid code s.assign_team_color),
      p.2.join_code.length = 4 ∧ ∀ c ∈ p.2.join_code.toList, c ∈ JOIN_CODE_CHARS
    rw [hteams]
    intro p hp
    rcases List.mem_append.mp hp with hmem | hmem
    · exact inv.code_wf p hmem
    · simp only [List.mem_singleton] at hmem
      subst hmem
      exact ⟨hlen, hchars⟩

/-- The success path of `join_team` preserves the invariant. -/
theorem inv_afterJoin {s : SessionManager} (inv : Inv s) {pn sid : String}
    {now : Nat} {pid team_id : String} {team : Team}
    (hlk : AList.lookup s.teams team_id = some team) :
    Inv (afterJoin s pn sid now pid team_id team) :=
  Inv.update_team inv team_id team
    { team with players := AList.insert team.players pid ⟨pyStrip pn, now⟩ }
    hlk rfl rfl rfl

/-- `reset_game` preserves the invariant. -/
theorem inv_reset {s : SessionManager} (inv : Inv s) (preserve : Bool) :
    Inv (s.reset_game preserve) := by
  unfold SessionManager.reset_game
  by_cases hp : preserve = true
  · rw [if_pos hp]
    refine ⟨?_, ?_, ?_, ?_⟩
    · show (AList.keys (List.map (fun p => (p.1, SessionManager.resetTeam p.2)) s.teams)).Nodup
      simp only [AList.keys, List.map_map]
      exact inv.keys_nodup
    · show s.join_codes = List.map (fun p => (p.2.join_code, p.1))
        (List.map (fun p => (p.1, SessionManager.resetTeam p.2)) s.teams)
      rw [inv.codes_eq, List.map_map]
      rfl
    · show (List.map (fun p => p.2.join_code)
        (List.map (fun p => (p.1, SessionManager.resetTeam p.2)) s.teams)).Nodup
      rw [List.map_map]
      exact inv.codes_nodup
    · show ∀ p ∈ List.map (fun p => (p.1, SessionManager.resetTeam p.2)) s.teams,
        p.2.join_code.length = 4 ∧ ∀ c ∈ p.2.join_code.toList, c ∈ JOIN_CODE_CHARS
      intro p hp'
      simp only [List.mem_map] at hp'
      obtain ⟨q, hq, hfq⟩ := hp'
      rw [← hfq]
      exact inv.code_wf q hq
  · rw [if_neg hp]
    exact ⟨List.nodup_nil, rfl, List.nodup_nil,
      fun p hp' => absurd hp' (List.not_mem_nil p)⟩

/-- `kick_team` preserves the invariant. -/
theorem inv_kick {s : SessionManager} (inv : Inv s) (tid : String) :
    Inv (s.kick_team tid).2 := by
  unfold SessionManager.kick_team
  cases hlk : AList.lookup s.teams tid with
  | none => exact inv
  | some team =>
      dsimp only
      refine ⟨?_, ?_, ?_, ?_⟩
      · show (AList.keys (AList.erase s.teams tid)).Nodup
        exact inv.keys_nodup.sublist (AList.keys_erase_sublist _ _)
      · show AList.erase s.join_codes team.join_code =
          List.map (fun p => (p.2.join_code, p.1)) (AList.erase s.teams tid)
        rw [inv.codes_eq]
        exact erase_codes_comm s.teams tid team hlk inv.codes_nodup
      · show (List.map (fun p => p.2.join_code) (AList.erase s.teams tid)).Nodup
        exact inv.codes_nodup.sublist ((AList.erase_sublist _ _).map _)
      · intro p hp
        exact inv.code_wf p ((AList.erase_sublist s.teams tid).subset hp)

/-- Every reachable Registry state satisfies the join-code invariant. -/
theorem inv_of_reachable {s : SessionManager} (hr : Reachable s) : Inv s := by
  induction hr with
  | init =>
      exact ⟨List.nodup_nil, rfl, List.nodup_nil,
        fun p hp => absurd hp (List.not_mem_nil p)⟩
  | create_team hr hfresh h ih =>
      rcases create_team_spec _ _ _ _ _ _ _ _ _ _ _ h with
        ⟨_, rfl⟩ | ⟨_, _, _, rfl⟩ | ⟨_, _, _, code, hloop, rfl, _⟩
      · exact ih
      · exact ih
      · obtain ⟨⟨j, hj⟩, hcontains⟩ := gen_code_loop_ok _ _ _ _ _ hloop
        subst hj
        exact inv_afterCreate ih hfresh hcontains
          (generate_join_code_length _ _) (generate_join_code_chars _ _)
  | join_team hr h ih =>
      rcases join_team_spec _ _ _ _ _ _ _ _ h with
        ⟨_, rfl⟩ | ⟨_, rfl⟩ | ⟨team_id, team, _, hlk, rfl, _⟩
      · exact ih
      · exact ih
      · exact inv_afterJoin ih hlk
  | reassociate hr ih =>
      rename_i s sid tid pid now
      unfold SessionManager.reassociate_session
      cases hlk : AList.lookup s.teams tid with
      | none => exact ih
      | some team =>
          dsimp only
          cases hpl : AList.lookup team.players pid with
          | none => exact ih
          | some pv => exact Inv.congr ih rfl rfl
  | add_points hr ih =>
      rename_i s tid pts
      unfold SessionManager.add_points
      cases hlk : AList.lookup s.teams tid with
      | none => exact ih
      | some team =>
          exact Inv.update_team ih tid team { team with score := team.score + pts }
            hlk rfl rfl rfl
  | reset_game hr ih =>
      rename_i s preserve
      exact inv_reset ih preserve
  | kick_team hr ih =>
      rename_i s tid
      exact inv_kick ih tid
  | set_team_avatar hr ih =>
      rename_i s tid av
      unfold SessionManager.set_team_avatar
      cases hlk : AList.lookup s.teams tid with
      | none => exact ih
      | some team =>
          exact Inv.update_team ih tid team { team with avatar := some av }
            hlk rfl rfl rfl
  | toggle_elimination hr ih =>
      rename_i s tid e
      unfold SessionManager.toggle_elimination
      cases hlk : AList.lookup s.teams tid with
      | none => exact ih
      | some team =>
          exact Inv.update_team ih tid team
            { team with eliminated := e, status := if e then "eliminated" else "active" }
            hlk rfl rfl rfl
  | touch_session hr ih =>
      rename_i s sid now
      unfold SessionManager.touch_session
      cases hlk : AList.lookup s.sessions sid with
      | none => exact ih
      | some sv =>
          cases sv with
          | legacy tid => exact Inv.congr ih rfl rfl
          | sess tid pid last => exact Inv.congr ih rfl rfl
  | set_state hr ih =>
      exact Inv.congr ih rfl rfl

/-- Accumulator-generalized unrolling of `_load_scores`' join-code
rebuild: with pairwise-distinct codes every insertion appends. -/
theorem rebuild_aux (l : AList Team) : ∀ acc : AList String,
    (∀ p ∈ l, p.2.join_code ∉ AList.keys acc) →
    (List.map (fun p => p.2.join_code) l).Nodup →
    List.foldl (fun acc p => AList.insert acc p.2.join_code p.1) acc l
      = acc ++ List.map (fun p => (p.2.join_code, p.1)) l := by
  induction l with
  | nil => intro acc _ _; simp
  | cons hd tl ih =>
      intro acc hfresh hnd
      obtain ⟨k₀, t₀⟩ := hd
      simp only [List.foldl_cons]
      rw [AList.insert_of_not_mem_keys _ _ _ (hfresh (k₀, t₀) (List.mem_cons_self _ _))]
      simp only [List.map_cons, List.nodup_cons] at hnd
      rw [ih (acc ++ [(t₀.join_code, k₀)]) ?_ hnd.2]
      · simp
      · intro p hp hmem
        simp only [AList.keys, List.map_append, List.map_cons, List.map_nil] at hmem
        rcases List.mem_append.mp hmem with hm | hm
        · exact hfresh p (List.mem_cons_of_mem _ hp) hm
        · simp only [List.mem_singleton] at hm
          exact hnd.1 (hm ▸ List.mem_map_of_mem _ hp)

/-- With pairwise-distinct codes, the rebuilt index is exactly the
code → id projection of the teams dict. -/
theorem rebuild_eq_map (l : AList Team)
    (hnd : (List.map (fun p => p.2.join_code) l).Nodup) :
    rebuildJoinCodes l = List.map (fun p => (p.2.join_code, p.1)) l := by
  have := rebuild_aux l [] (by intro p _ hmem; simp [AList.keys] at hmem) hnd
  simpa [rebuildJoinCodes] using this

/-- `witnessState` is reachable: one `create_team` from a fresh start. -/
theorem witnessState_reachable : Reachable witnessState := by
  have h : (SessionManager.fresh none).create_team "Alpha" "Ada" "sid1" 0 "team-1"
      "player-1" (fun n => generate_join_code witnessPick (4 * n)) 1
      = some (witnessResult, witnessState) := rfl
  exact Reachable.create_team Reachable.init (List.not_mem_nil _) h

/-- C3 (counterexample): the restricted join-code alphabet
`'ABCDEFGHJKMNPQRSTUVWXYZ23456789'` has 31 distinct symbols, not the
32 the claim asserts. -/
theorem join_code_alphabet_has_31_symbols :
    JOIN_CODE_CHARS.Nodup ∧ JOIN_CODE_CHARS.length = 31 ∧
      ¬JOIN_CODE_CHARS.length = 32 := by
  refine ⟨?_, ?_, ?_⟩ <;> decide

/-- C3 (amended): at every reachable Registry state, every team's join
code is exactly 4 characters, every character is drawn from the
31-symbol restricted alphabet (visually ambiguous characters excluded),
and no two live teams hold the same join code. -/
theorem join_code_invariant {s : SessionManager} (hr : Reachable s) :
    (∀ p ∈ s.teams, p.2.join_code.length = 4 ∧
      ∀ c ∈ p.2.join_code.toList, c ∈ JOIN_CODE_CHARS) ∧
    (∀ tid₁ t₁ tid₂ t₂, AList.lookup s.teams tid₁ = some t₁ →
      AList.lookup s.teams tid₂ = some t₂ → t₁.join_code = t₂.join_code →
      tid₁ = tid₂) := by
  have inv := inv_of_reachable hr
  refine ⟨inv.code_wf, ?_⟩
  intro tid₁ t₁ tid₂ t₂ h1 h2 hc
  have m1 := AList.lookup_some_mem h1
  have m2 := AList.lookup_some_mem h2
  have heq := List.inj_on_of_nodup_map inv.codes_nodup m1 m2 hc
  exact congrArg Prod.fst heq

/-- C3 witness: the invariant holds at the concrete reachable state
with team "Alpha" and join code "AAAA". -/
theorem join_code_invariant_witness :
    (∀ p ∈ witnessState.teams, p.2.join_code.length = 4 ∧
      ∀ c ∈ p.2.join_code.toList, c ∈ JOIN_CODE_CHARS) ∧
    (∀ tid₁ t₁ tid₂ t₂, AList.lookup witnessState.teams tid₁ = some t₁ →
      AList.lookup witnessState.teams tid₂ = some t₂ → t₁.join_code = t₂.join_code →
      tid₁ = tid₂) :=
  join_code_invariant witnessState_reachable

/-- C4: writing the snapshot and loading it in a fresh Registry
instance pointed at the same file reconstructs identical teams,
sessions, current_state and state_data, and the rebuilt join-code index
coincides with the original. -/
theorem persistence_roundtrip {s : SessionManager} (hr : Reachable s) :
    (SessionManager.fresh (SessionManager.save_scores s).persisted).teams = s.teams ∧
    (SessionManager.fresh (SessionManager.save_scores s).persisted).sessions = s.sessions ∧
    (SessionManager.fresh (SessionManager.save_scores s).persisted).current_state = s.current_state ∧
    (SessionManager.fresh (SessionManager.save_scores s).persisted).state_data = s.state_data ∧
    (SessionManager.fresh (SessionManager.save_scores s).persisted).join_codes = s.join_codes := by
  have inv := inv_of_reachable hr
  refine ⟨rfl, rfl, rfl, rfl, ?_⟩
  show rebuildJoinCodes s.teams = s.join_codes
  rw [rebuild_eq_map s.teams inv.codes_nodup, inv.codes_eq]

/-- C4 witness: the round-trip at the concrete reachable state. -/
theorem persistence_roundtrip_witness :
    (SessionManager.fresh (SessionManager.save_scores witnessState).persisted).teams = witnessState.teams ∧
    (SessionManager.fresh (SessionManager.save_scores witnessState).persisted).sessions = witnessState.sessions ∧
    (SessionManager.fresh (SessionManager.save_scores witnessState).persisted).current_state = witnessState.current_state ∧
    (SessionManager.fresh (SessionManager.save_scores witnessState).persisted).state_data = witnessState.state_data ∧
    (SessionManager.fresh (SessionManager.save_scores witnessState).persisted).join_codes = witnessState.join_codes :=
  persistence_roundtrip witnessState_reachable

/-- C2: a second `create_team` from the same session with the same
arguments, immediately after a successful one, is an idempotent
reconnect: it returns a success result carrying the original team and
player ids, and leaves the Registry (in particular the set of teams)
exactly as it was after the first call. -/
theorem create_team_idempotent (s : SessionManager) (tn pn sid : String)
    (now : Nat) (tid pid : String) (cg : Nat → String) (fuel : Nat)
    (now2 : Nat) (tid2 pid2 : String) (cg2 : Nat → String) (fuel2 : Nat)
    (r1 : TeamResult) (s1 : SessionManager)
    (h1 : s.create_team tn pn sid now tid pid cg fuel = some (r1, s1))
    (hs : r1.success = true) :
    ∃ r2, s1.create_team tn pn sid now2 tid2 pid2 cg2 fuel2 = some (r2, s1) ∧
      r2.success = true ∧ r2.team_id = r1.team_id ∧ r2.player_id = r1.player_id := by
  rcases create_team_spec _ _ _ _ _ _ _ _ _ _ _ h1 with
    ⟨hfail, _⟩ | ⟨hv1, hv2, hrec, rfl⟩ |
    ⟨hv1, hv2, hrec, code, hloop, rfl, hsucc, hteam, hplayer, hcode⟩
  · rw [hfail] at hs; cases hs
  · refine ⟨r1, ?_, hs, rfl, rfl⟩
    unfold SessionManager.create_team
    rw [if_neg hv1, if_neg hv2, hrec]
  · have hsess : AList.lookup (afterCreate s tn pn sid now tid pid code).sessions sid
        = some (SessVal.sess tid (some pid) now) :=
      AList.lookup_insert_self s.sessions sid (SessVal.sess tid (some pid) now)
    have hteamlk : AList.lookup (afterCreate s tn pn sid now tid pid code).teams tid
        = some (newTeam tn pn now pid code s.assign_team_color) :=
      AList.lookup_insert_self s.teams tid (newTeam tn pn now pid code s.assign_team_color)
    have hrec2 : ∃ r2, (afterCreate s tn pn sid now tid pid code).reconnect_result sid
        = some r2 ∧ r2.success = true ∧ r2.team_id = some tid ∧ r2.player_id = some pid := by
      unfold SessionManager.reconnect_result
      rw [hsess]
      dsimp only [SessVal.teamId, SessVal.playerId]
      rw [hteamlk]
      exact ⟨_, rfl, rfl, rfl, rfl⟩
    obtain ⟨r2, hr2, hr2s, hr2t, hr2p⟩ := hrec2
    refine ⟨r2, ?_, hr2s, ?_, ?_⟩
    · unfold SessionManager.create_team
      rw [if_neg hv1, if_neg hv2, hr2]
    · rw [hr2t, hteam]
    · rw [hr2p, hplayer]

/-- C2 witness: the concrete double `create_team` on a fresh Registry. -/
theorem create_team_idempotent_witness :
    ((SessionManager.fresh none).create_team "Alpha" "Ada" "sid1" 0 "team-1" "player-1"
        (fun n => generate_join_code witnessPick (4 * n)) 1
      = some (witnessResult, witnessState)) ∧
    witnessResult.success = true ∧
    (∃ r2, witnessState.create_team "Alpha" "Ada" "sid1" 7 "team-2" "player-2"
        (fun _ => "BBBB") 1 = some (r2, witnessState) ∧
      r2.success = true ∧ r2.team_id = witnessResult.team_id ∧
      r2.player_id = witnessResult.player_id) :=
  ⟨rfl, rfl,
   create_team_idempotent (SessionManager.fresh none) "Alpha" "Ada" "sid1" 0 "team-1"
     "player-1" (fun n => generate_join_code witnessPick (4 * n)) 1 7 "team-2" "player-2"
     (fun _ => "BBBB") 1 witnessResult witnessState rfl rfl⟩

/-- C9: whenever `create_team` or `join_team` returns a failure result,
the Registry state (teams, sessions, join-code index, and the persisted
snapshot) is exactly as it was before the call. -/
theorem registration_failure_atomic :
    (∀ (s : SessionManager) (tn pn sid : String) (now : Nat) (tid pid : String)
       (cg : Nat → String) (fuel : Nat) (r : TeamResult) (s' : SessionManager),
       s.create_team tn pn sid now tid pid cg fuel = some (r, s') →
       r.success = false → s' = s) ∧
    (∀ (s : SessionManager) (jc pn sid : String) (now : Nat) (pid : String)
       (r : TeamResult) (s' : SessionManager),
       s.join_team jc pn sid now pid = some (r, s') →
       r.success = false → s' = s) := by
  constructor
  · intro s tn pn sid now tid pid cg fuel r s' h hfail
    rcases create_team_spec _ _ _ _ _ _ _ _ _ _ _ h with
      ⟨_, rfl⟩ | ⟨_, _, _, rfl⟩ | ⟨_, _, _, code, _, rfl, hsucc, _⟩
    · rfl
    · rfl
    · rw [hsucc] at hfail; cases hfail
  · intro s jc pn sid now pid r s' h hfail
    rcases join_team_spec _ _ _ _ _ _ _ _ h with
      ⟨_, rfl⟩ | ⟨_, rfl⟩ | ⟨team_id, team, _, _, rfl, hsucc, _⟩
    · rfl
    · rfl
    · rw [hsucc] at hfail; cases hfail

/-- C9 witness: a rejected `create_team` (empty team name) and a
rejected `join_team` (unassigned code) leave the fresh Registry
untouched. -/
theorem registration_failure_atomic_witness :
    ((SessionManager.fresh none).create_team "" "Ada" "sid1" 0 "t" "p"
        (fun _ => "AAAA") 1
      = some (TeamResult.failure "Team name must be 1-20 characters",
              SessionManager.fresh none)) ∧
    (TeamResult.failure "Team name must be 1-20 characters").success = false ∧
    ((SessionManager.fresh none).join_team "ZZZZ" "Ada" "sid1" 0 "p"
      = some (TeamResult.failure "Invalid join code", SessionManager.fresh none)) ∧
    (TeamResult.failure "Invalid join code").success = false ∧
    SessionManager.fresh none = SessionManager.fresh none ∧
    SessionManager.fresh none = SessionManager.fresh none :=
  ⟨rfl, rfl, rfl, rfl,
   registration_failure_atomic.1 (SessionManager.fresh none) "" "Ada" "sid1" 0 "t" "p"
     (fun _ => "AAAA") 1 _ _ rfl rfl,
   registration_failure_atomic.2 (SessionManager.fresh none) "ZZZZ" "Ada" "sid1" 0 "p"
     _ _ rfl rfl⟩

theorem ScoreAgree.ext {sm0 sm : SessionManager} {f g : String → Int}
    (h : ∀ tid, f tid = g tid) (hag : ScoreAgree sm0 sm f) : ScoreAgree sm0 sm g := by
  intro tid
  rw [← h tid]
  exact hag tid

theorem ScoreAgree.refl (sm : SessionManager) : ScoreAgree sm sm (fun _ => 0) := by
  intro tid
  cases h : AList.lookup sm.teams tid with
  | none => rfl
  | some t =>
      simp only [Option.map_some']
      congr 1
      cases t
      simp

/-- `_get_team_votes` only reads team membership, which score drift
does not affect. -/
theorem get_team_votes_scoreAgree {sm0 sm : SessionManager} {f : String → Int}
    (hag : ScoreAgree sm0 sm f) (votes : AList String) (tid : String) :
    SurvivalGame.get_team_votes sm votes tid = SurvivalGame.get_team_votes sm0 votes tid := by
  unfold SurvivalGame.get_team_votes SessionManager.get_team
  have h := hag tid
  cases h0 : AList.lookup sm0.teams tid with
  | none =>
      rw [h0] at h
      simp only [Option.map_none'] at h
      rw [h]
  | some t =>
      rw [h0] at h
      simp only [Option.map_some'] at h
      rw [h]

/-- One loop iteration of `handle_reveal` adjusts exactly the processed
team's score, by its bonus computed against the pre-reveal Registry. -/
theorem reveal_step_scoreAgree (votes : AList String) (gm : Option String)
    {sm0 sm : SessionManager} {f : String → Int}
    (hag : ScoreAgree sm0 sm f) (a : String) (aw nw : List (String × JVal)) :
    ScoreAgree sm0 (SurvivalGame.reveal_step votes gm (sm, aw, nw) a).1
      (fun tid => f tid + (if tid = a then SurvivalGame.bonus sm0 votes gm tid else 0)) := by
  have hvotes := get_team_votes_scoreAgree hag votes a
  unfold SurvivalGame.reveal_step
  dsimp only
  cases hlk : AList.lookup sm.teams a with
  | none =>
      dsimp only [SessionManager.get_team]
      rw [hlk]
      intro tid
      rcases eq_or_ne tid a with rfl | hne
      · have h0 : AList.lookup sm0.teams tid = none := by
          have h := hag tid
          rw [hlk] at h
          cases hl0 : AList.lookup sm0.teams tid with
          | none => rfl
          | some t => rw [hl0] at h; simp at h
        rw [h0, hlk]
        rfl
      · simpa [hne] using hag tid
  | some team =>
      dsimp only [SessionManager.get_team]
      rw [hlk]
      dsimp only
      by_cases hv : (SurvivalGame.get_team_votes sm votes a).isEmpty
      · rw [if_pos hv]
        have hb0 : SurvivalGame.bonus sm0 votes gm a = 0 := by
          have hv0 : SurvivalGame.get_team_votes sm0 votes a = [] := by
            rw [← hvotes]
            exact List.isEmpty_iff.mp hv
          cases gm with
          | none => rfl
          | some m =>
              show (if SurvivalGame.team_majority_of (SurvivalGame.get_team_votes sm0 votes a) = some m then SurvivalGame.POINTS_FOR_MAJORITY else 0) = 0
              rw [hv0]
              simp [SurvivalGame.team_majority_of]
        refine ScoreAgree.ext (fun tid => ?_) hag
        rcases eq_or_ne tid a with rfl | hne
        · simp [hb0]
        · simp [hne]
      · rw [if_neg hv]
        cases gm with
        | none =>
            dsimp only
            have hb0 : SurvivalGame.bonus sm0 votes none a = 0 := rfl
            refine ScoreAgree.ext (fun tid => ?_) hag
            rcases eq_or_ne tid a with rfl | hne
            · simp [hb0]
            · simp [hne]
        | some m =>
            dsimp only
            by_cases halign : SurvivalGame.team_majority_of
                (SurvivalGame.get_team_votes sm votes a) = some m
            · rw [if_pos halign]
              have hb : SurvivalGame.bonus sm0 votes (some m) a
                  = SurvivalGame.POINTS_FOR_MAJORITY := by
                show (if SurvivalGame.team_majority_of (SurvivalGame.get_team_votes sm0 votes a) = some m then SurvivalGame.POINTS_FOR_MAJORITY else 0) = SurvivalGame.POINTS_FOR_MAJORITY
                rw [← hvotes, if_pos halign]
              dsimp only
              unfold SessionManager.add_points
              rw [hlk]
              dsimp only
              intro tid
              rcases eq_or_ne tid a with rfl | hne
              · show AList.lookup (AList.insert sm.teams tid _) tid = _
                rw [AList.lookup_insert_self]
                have h := hag tid
                rw [hlk] at h
                cases hl0 : AList.lookup sm0.teams tid with
                | none => rw [hl0] at h; simp at h
                | some t0 =>
                    rw [hl0] at h
                    simp only [Option.map_some', Option.some.injEq] at h
                    rw [h]
                    simp only [Option.map_some', Option.some.injEq]
                    simp [hb]
                    ring
              · show AList.lookup (AList.insert sm.teams a _) tid = _
                rw [AList.lookup_insert_ne _ _ _ _ hne.symm]
                simpa [hne] using hag tid
            · rw [if_neg halign]
              have hb0 : SurvivalGame.bonus sm0 votes (some m) a = 0 := by
                show (if SurvivalGame.team_majority_of (SurvivalGame.get_team_votes sm0 votes a) = some m then SurvivalGame.POINTS_FOR_MAJORITY else 0) = 0
                rw [← hvotes, if_neg halign]
              dsimp only
              refine ScoreAgree.ext (fun tid => ?_) hag
              rcases eq_or_ne tid a with rfl | hne
              · simp [hb0]
              · simp [hne]

/-- Folding the reveal loop over a duplicate-free list of team ids pays
each listed team its bonus exactly once. -/
theorem reveal_fold_scoreAgree (votes : AList String) (gm : Option String)
    (sm0 : SessionManager) :
    ∀ (L : List String) (sm : SessionManager) (f : String → Int)
      (aw nw : List (String × JVal)), L.Nodup → ScoreAgree sm0 sm f →
      ScoreAgree sm0 (List.foldl (SurvivalGame.reveal_step votes gm) (sm, aw, nw) L).1
        (fun tid => f tid + (if tid ∈ L then SurvivalGame.bonus sm0 votes gm tid else 0)) := by
  intro L
  induction L with
  | nil =>
      intro sm f aw nw _ hag
      simp only [List.foldl_nil]
      exact ScoreAgree.ext (fun tid => by simp) hag
  | cons a L ih =>
      intro sm f aw nw hnd hag
      obtain ⟨hnotmem, hndL⟩ := List.nodup_cons.mp hnd
      simp only [List.foldl_cons]
      have hstep := reveal_step_scoreAgree votes gm hag a aw nw
      have hrec := ih (SurvivalGame.reveal_step votes gm (sm, aw, nw) a).1 _
        (SurvivalGame.reveal_step votes gm (sm, aw, nw) a).2.1
        (SurvivalGame.reveal_step votes gm (sm, aw, nw) a).2.2 hndL hstep
      refine ScoreAgree.ext (fun tid => ?_) hrec
      rcases eq_or_ne tid a with rfl | hne
      · have : tid ∉ L := hnotmem
        simp [this]
      · simp [hne]

/-- C8: in `handle_reveal` with a non-empty vote set, exactly the teams
whose internal majority matches the strict overall plurality are
awarded `POINTS_FOR_MAJORITY`; on an overall tie the bonus is zero for
every team. -/
theorem survival_reveal_awards (st : SurvivalState) (sm : SessionManager)
    (hnd : (AList.keys sm.teams).Nodup)
    (hne : ¬st.player_votes.isEmpty) :
    ∀ tid t, AList.lookup sm.teams tid = some t →
      AList.lookup (SurvivalGame.handle_reveal st sm).2.1.teams tid =
        some { t with score := t.score + SurvivalGame.bonus sm st.player_votes (SurvivalGame.game_majority_of st.player_votes) tid } := by
  intro tid t hlk
  unfold SurvivalGame.handle_reveal
  rw [if_neg hne]
  dsimp only
  have hfold := reveal_fold_scoreAgree st.player_votes
    (SurvivalGame.game_majority_of st.player_votes) sm (AList.keys sm.teams) sm
    (fun _ => 0) [] [] hnd (ScoreAgree.refl sm)
  have h := hfold tid
  rw [hlk] at h
  simp only [Option.map_some'] at h
  rw [h]
  have hmem : tid ∈ AList.keys sm.teams := AList.mem_keys_of_lookup_eq_some hlk
  simp [hmem]

/-- C8 witness: two teams vote oppositely (2-1); revealing awards 100
to the plurality side and nothing to the minority side. -/
theorem survival_reveal_awards_witness :
    (AList.keys survSM.teams).Nodup ∧ ¬survState.player_votes.isEmpty ∧
    AList.lookup survSM.teams "T1" = some survTeamA ∧
    AList.lookup (SurvivalGame.handle_reveal survState survSM).2.1.teams "T1" =
      some { survTeamA with score := survTeamA.score + SurvivalGame.bonus survSM survState.player_votes (SurvivalGame.game_majority_of survState.player_votes) "T1" } :=
  ⟨by decide, by decide, rfl,
   survival_reveal_awards survState survSM (by decide) (by decide) "T1" survTeamA rfl⟩

/-- Normal dispatch: with an active, resolvable game that declares the
event, `handle_event` runs the handler, stores its final state, and
either fans out the returned envelope or converts a raised exception
into a single `GAME_ERROR` emission to the sender. -/
theorem handle_event_dispatch (rs : RouterState) (ev : String) (data : JVal)
    (sid gid : String) (game : Game) (gst' : JVal) (sm' : SessionManager)
    (out : Except String EventResponse)
    (hcur : rs.current_game_id = some gid)
    (hg : AList.lookup rs.games gid = some game)
    (hev : ¬(ev ∉ game.EVENTS ∧ ev ∉ game.ADMIN_EVENTS ∧ ev ∉ game.GLOBAL_ADMIN_EVENTS))
    (hout : game.handleFn ev data (EventRouter.buildContext rs.sm sid) game.st rs.sm
      = (gst', sm', out)) :
    EventRouter.handle_event rs ev data sid =
      ({ rs with games := AList.insert rs.games gid { game with st := gst' }, sm := sm' },
       match out with
       | Except.ok resp => processResponse resp (some (EventRouter.buildContext rs.sm sid))
       | Except.error msg =>
           [Emission.mk "error"
             (JVal.jobj [("code", JVal.jstr "GAME_ERROR"), ("message", JVal.jstr msg)])
             (Room.sid sid)]) := by
  have h1 : (game.handleFn ev data (EventRouter.buildContext rs.sm sid) game.st rs.sm).1
      = gst' := by rw [hout]
  have h2 : (game.handleFn ev data (EventRouter.buildContext rs.sm sid) game.st rs.sm).2.1
      = sm' := by rw [hout]
  have h3 : (game.handleFn ev data (EventRouter.buildContext rs.sm sid) game.st rs.sm).2.2
      = out := by rw [hout]
  unfold EventRouter.handle_event
  rw [hcur]
  dsimp only
  rw [hg]
  dsimp only
  rw [if_neg hev, h1, h2, h3]
  cases out with
  | ok resp => rfl
  | error msg => rfl

/-- C6: dispatching an event name not declared by the currently active
cartridge (player, admin or global) is a no-op: the router, registry
and cartridge states are unchanged and nothing is emitted. -/
theorem undeclared_event_noop (rs : RouterState) (ev : String) (data : JVal)
    (sid gid : String) (game : Game)
    (hcur : rs.current_game_id = some gid)
    (hg : AList.lookup rs.games gid = some game)
    (hev : ev ∉ game.EVENTS ∧ ev ∉ game.ADMIN_EVENTS ∧ ev ∉ game.GLOBAL_ADMIN_EVENTS) :
    EventRouter.handle_event rs ev data sid = (rs, []) := by
  unfold EventRouter.handle_event
  rw [hcur]
  dsimp only
  rw [hg]
  dsimp only
  rw [if_pos hev]

/-- C6 witness: an unknown event on the lobby router. -/
theorem undeclared_event_noop_witness :
    lobbyOnlyRS.current_game_id = some "LOBBY" ∧
    AList.lookup lobbyOnlyRS.games "LOBBY" = some LobbyGame ∧
    ("ghost_event" ∉ LobbyGame.EVENTS ∧ "ghost_event" ∉ LobbyGame.ADMIN_EVENTS ∧
      "ghost_event" ∉ LobbyGame.GLOBAL_ADMIN_EVENTS) ∧
    EventRouter.handle_event lobbyOnlyRS "ghost_event" JVal.null "sid7" = (lobbyOnlyRS, []) :=
  ⟨rfl, rfl, by decide,
   undeclared_event_noop lobbyOnlyRS "ghost_event" JVal.null "sid7" "LOBBY" LobbyGame
     rfl rfl (by decide)⟩

/-- C5: a handler that raises is caught at the dispatch boundary: the
only emission is a `GAME_ERROR` to the sending connection, the router
state is exactly the handler's own final state (the active cartridge id
in particular is unchanged), and a subsequent event on the resulting
state dispatches normally. -/
theorem handler_exception_contained (rs : RouterState) (ev : String) (data : JVal)
    (sid gid : String) (game : Game) (gst' : JVal) (sm' : SessionManager) (msg : String)
    (hcur : rs.current_game_id = some gid)
    (hg : AList.lookup rs.games gid = some game)
    (hev : ¬(ev ∉ game.EVENTS ∧ ev ∉ game.ADMIN_EVENTS ∧ ev ∉ game.GLOBAL_ADMIN_EVENTS))
    (hraise : game.handleFn ev data (EventRouter.buildContext rs.sm sid) game.st rs.sm
      = (gst', sm', Except.error msg)) :
    EventRouter.handle_event rs ev data sid =
      ({ rs with games := AList.insert rs.games gid { game with st := gst' }, sm := sm' },
       [Emission.mk "error"
         (JVal.jobj [("code", JVal.jstr "GAME_ERROR"), ("message", JVal.jstr msg)])
         (Room.sid sid)]) ∧
    (EventRouter.handle_event rs ev data sid).1.current_game_id = rs.current_game_id ∧
    (∀ (ev2 : String) (data2 : JVal) (sid2 : String) (game2 : Game) (gst2 : JVal)
       (sm2 : SessionManager) (resp2 : EventResponse),
       AList.lookup (EventRouter.handle_event rs ev data sid).1.games gid = some game2 →
       ¬(ev2 ∉ game2.EVENTS ∧ ev2 ∉ game2.ADMIN_EVENTS ∧ ev2 ∉ game2.GLOBAL_ADMIN_EVENTS) →
       game2.handleFn ev2 data2
         (EventRouter.buildContext (EventRouter.handle_event rs ev data sid).1.sm sid2)
         game2.st (EventRouter.handle_event rs ev data sid).1.sm = (gst2, sm2, Except.ok resp2) →
       EventRouter.handle_event (EventRouter.handle_event rs ev data sid).1 ev2 data2 sid2 =
         ({ (EventRouter.handle_event rs ev data sid).1 with
            games := AList.insert (EventRouter.handle_event rs ev data sid).1.games gid
              { game2 with st := gst2 },
            sm := sm2 },
          processResponse resp2
            (some (EventRouter.buildContext (EventRouter.handle_event rs ev data sid).1.sm sid2)))) := by
  have hmain := handle_event_dispatch rs ev data sid gid game gst' sm' (Except.error msg)
    hcur hg hev hraise
  refine ⟨hmain, ?_, ?_⟩
  · rw [hmain]
  · intro ev2 data2 sid2 game2 gst2 sm2 resp2 hg2 hev2 hok2
    have hcur2 : (EventRouter.handle_event rs ev data sid).1.current_game_id = some gid := by
      rw [hmain]; exact hcur
    have := handle_event_dispatch (EventRouter.handle_event rs ev data sid).1 ev2 data2
      sid2 gid game2 gst2 sm2 (Except.ok resp2) hcur2 hg2 hev2 hok2
    exact this

/-- C5 witness: the crashing cartridge's handler raises; only the
sender receives the error and the active cartridge id is unchanged. -/
theorem handler_exception_contained_witness :
    crashRS.current_game_id = some "CRASH" ∧
    AList.lookup crashRS.games "CRASH" = some CrashGame ∧
    ¬("boom_event" ∉ CrashGame.EVENTS ∧ "boom_event" ∉ CrashGame.ADMIN_EVENTS ∧
       "boom_event" ∉ CrashGame.GLOBAL_ADMIN_EVENTS) ∧
    (EventRouter.handle_event crashRS "boom_event" JVal.null "sid9" =
      ({ crashRS with
         games := AList.insert crashRS.games "CRASH" { CrashGame with st := CrashGame.st },
         sm := crashRS.sm },
       [Emission.mk "error"
         (JVal.jobj [("code", JVal.jstr "GAME_ERROR"), ("message", JVal.jstr "boom")])
         (Room.sid "sid9")])) ∧
    (EventRouter.handle_event crashRS "boom_event" JVal.null "sid9").1.current_game_id =
      crashRS.current_game_id :=
  ⟨rfl, rfl, by decide,
   (handler_exception_contained crashRS "boom_event" JVal.null "sid9" "CRASH" CrashGame
     CrashGame.st crashRS.sm "boom" rfl rfl (by decide) rfl).1,
   (handler_exception_contained crashRS "boom_event" JVal.null "sid9" "CRASH" CrashGame
     CrashGame.st crashRS.sm "boom" rfl rfl (by decide) rfl).2.1⟩

/-- C10: with no sender context, the sender-relative channels
(`to_sender`, `to_team`, `to_team_others`, `error`) are never
delivered; the fan-out is exactly what the broadcast, admin and
specific-team channels produce, and every emission is addressed to
the whole room, the admin room, or a team room. -/
theorem no_context_fanout (resp : EventResponse) :
    processResponse resp none =
      processResponse
        { resp with to_sender := [], to_team := [], to_team_others := [], error := [] }
        none ∧
    ∀ e ∈ processResponse resp none,
      e.room = Room.all ∨ e.room = Room.admin ∨ ∃ t, e.room = Room.team t := by
  constructor
  · rfl
  · intro e he
    unfold processResponse at he
    dsimp only at he
    simp only [List.append_nil, List.nil_append, List.mem_append] at he
    rcases he with (hb | hadm) | hsp
    · by_cases hbe : resp.broadcast.isEmpty
      · rw [if_pos hbe] at hb; cases hb
      · rw [if_neg hbe] at hb
        obtain ⟨p, _, rfl⟩ := List.mem_map.mp hb
        exact Or.inl rfl
    · by_cases hae : resp.to_admin.isEmpty
      · rw [if_pos hae] at hadm; cases hadm
      · rw [if_neg hae] at hadm
        obtain ⟨p, _, rfl⟩ := List.mem_map.mp hadm
        exact Or.inr (Or.inl rfl)
    · obtain ⟨l, hl, hel⟩ := List.mem_flatten.mp hsp
      obtain ⟨q, _, rfl⟩ := List.mem_map.mp hl
      obtain ⟨p, _, rfl⟩ := List.mem_map.mp hel
      exact Or.inr (Or.inr ⟨q.1, rfl⟩)

/-- An envelope with every channel populated, for the C10 witness. -/
def fullResp : EventResponse :=
  ⟨[("b", JVal.null)], [("s", JVal.null)], [("t", JVal.null)], [("o", JVal.null)],
   [("a", JVal.null)], [("T9", [("x", JVal.null)])], [("code", JVal.null)]⟩

/-- C10 witness: the fully-populated envelope with no sender context. -/
theorem no_context_fanout_witness :
    processResponse fullResp none =
      processResponse
        { fullResp with to_sender := [], to_team := [], to_team_others := [], error := [] }
        none ∧
    ∀ e ∈ processResponse fullResp none,
      e.room = Room.all ∨ e.room = Room.admin ∨ ∃ t, e.room = Room.team t :=
  no_context_fanout fullResp

/-- C1 (evaluation at the failing input): `set_state("BOGUS")` with only
`LOBBY` registered succeeds and falls back to the LOBBY cartridge, but
both the `state_change` broadcast and the persisted `current_state`
carry `"BOGUS"`, not `"LOBBY"`. -/
theorem setState_fallback_broadcast_bug :
    (EventRouter.set_state lobbyOnlyRS "BOGUS" []).2.2 = true ∧
    (EventRouter.set_state lobbyOnlyRS "BOGUS" []).1.current_game_id = some "LOBBY" ∧
    (EventRouter.set_state lobbyOnlyRS "BOGUS" []).1.sm.current_state = "BOGUS" ∧
    (EventRouter.set_state lobbyOnlyRS "BOGUS" []).2.1 =
      [Emission.mk "state_change"
        (JVal.jobj [("current_state", JVal.jstr "BOGUS"), ("state_data", JVal.jobj [])])
        Room.all] :=
  ⟨rfl, rfl, rfl, rfl⟩

/-- C7 (counterexample): when neither the target nor `LOBBY` resolves,
the transition is aborted but the active cartridge identifier does NOT
remain at its pre-call value. -/
theorem setState_not_last_known_good :
    (EventRouter.set_state noLobbyRS "BOGUS" []).2.2 = false ∧
    ¬(EventRouter.set_state noLobbyRS "BOGUS" []).1.current_game_id
      = noLobbyRS.current_game_id :=
  ⟨rfl, by decide⟩

/-- C7 (amended): when neither the target id nor the default `LOBBY`
resolves, `set_state` aborts (returns failure) and never persists a new
phase — the registry/session state is exactly what the exit hook left —
but the active cartridge identifier is overwritten to `"LOBBY"` (an
unresolvable id) rather than kept at its pre-call value. -/
theorem setState_default_missing_aborts (rs : RouterState) (new_state : String)
    (sd : StateData) (gid : String) (g : Game)
    (hnew : AList.lookup rs.games new_state = none)
    (hlobby : AList.lookup rs.games "LOBBY" = none)
    (hcur : rs.current_game_id = some gid)
    (hg : AList.lookup rs.games gid = some g) :
    EventRouter.set_state rs new_state sd =
      ({ current_game_id := some "LOBBY",
         games := AList.insert rs.games gid { g with st := (g.onExitFn g.st rs.sm).1 },
         sm := (g.onExitFn g.st rs.sm).2.1 },
       (match (g.onExitFn g.st rs.sm).2.2 with
        | Except.ok resp => processResponse resp none
        | Except.error _ => []),
       false) := by
  have hgn : gid ≠ new_state := by
    intro h
    rw [h, hnew] at hg
    cases hg
  have hgl : gid ≠ "LOBBY" := by
    intro h
    rw [h, hlobby] at hg
    cases hg
  unfold EventRouter.set_state
  rw [hcur]
  dsimp only
  rw [hg]
  dsimp only
  have hnew' : AList.lookup (AList.insert rs.games gid
      { g with st := (g.onExitFn g.st rs.sm).1 }) new_state
      = none := by
    rw [AList.lookup_insert_ne _ _ _ _ hgn]
    exact hnew
  have hlobby' : AList.lookup (AList.insert rs.games gid
      { g with st := (g.onExitFn g.st rs.sm).1 }) "LOBBY"
      = none := by
    rw [AList.lookup_insert_ne _ _ _ _ hgl]
    exact hlobby
  cases hout : (g.onExitFn g.st rs.sm).2.2 with
  | ok resp =>
      dsimp only
      rw [hnew']
      dsimp only
      by_cases hnl : new_state = "LOBBY"
      · rw [if_neg (by simpa using hnl)]
        rw [hnl]
      · rw [if_pos (by simpa using hnl)]
        rw [hlobby']
  | error msg =>
      dsimp only
      rw [hnew']
      dsimp only
      by_cases hnl : new_state = "LOBBY"
      · rw [if_neg (by simpa using hnl)]
        rw [hnl]
      · rw [if_pos (by simpa using hnl)]
        rw [hlobby']

/-- C7 witness: the amended behaviour at the concrete router whose
registry has `TRIVIA` but no `LOBBY`. -/
theorem setState_default_missing_aborts_witness :
    AList.lookup noLobbyRS.games "BOGUS" = none ∧
    AList.lookup noLobbyRS.games "LOBBY" = none ∧
    noLobbyRS.current_game_id = some "TRIVIA" ∧
    AList.lookup noLobbyRS.games "TRIVIA" = some LobbyGame ∧
    EventRouter.set_state noLobbyRS "BOGUS" [] =
      ({ current_game_id := some "LOBBY",
         games := AList.insert noLobbyRS.games "TRIVIA"
           { LobbyGame with st := (LobbyGame.onExitFn LobbyGame.st noLobbyRS.sm).1 },
         sm := (LobbyGame.onExitFn LobbyGame.st noLobbyRS.sm).2.1 },
       (match (LobbyGame.onExitFn LobbyGame.st noLobbyRS.sm).2.2 with
        | Except.ok resp => processResponse resp none
        | Except.error _ => []),
       false) :=
  ⟨rfl, rfl, rfl, rfl,
   setState_default_missing_aborts noLobbyRS "BOGUS" [] "TRIVIA" LobbyGame rfl rfl rfl rfl⟩

end Inhouse
